import Mathlib

/-!
# Verification of the CLIProxyAPI quota SwiftBar plugin (src/quota.5m.py)

Shallow embedding of the quota retrieval and normalization pipeline:

* `JVal` models dynamically-typed Python values as produced by `json.loads`
  (JSON `null` decodes to Python `None`, so `JVal.null` doubles as `None`).
* Python `dict`s are modelled as association lists in insertion order with
  unique keys; `dlookup`/`dinsert` give the dict read/overwrite semantics.
* Fallible Python code is modelled in `Option`: a `none` result means the
  Python code raises an uncaught exception at that point.
* The management-API proxy call (`api_call`) and the JSON decoder
  (`json.loads`, a library routine outside this repository) are abstracted
  as explicit parameters (`oracle`, `loads`); within one fetch only the
  target URL varies across proxied calls, so the oracle is indexed by URL.
* JSON numbers are modelled as rationals.  Caveats (noted where relevant):
  Python `float()` additionally coerces numeric strings — a string argument
  is modelled as a conversion failure here; non-integer numbers are
  formatted differently from Python float repr in f-strings.
-/

/-- A dynamically-typed value as decoded from JSON by Python.
`null` is Python `None` (JSON `null` decodes to `None`). -/
inductive JVal where
  | null : JVal
  | bool : Bool → JVal
  | num : ℚ → JVal
  | str : String → JVal
  | arr : List JVal → JVal
  | obj : List (String × JVal) → JVal

/-- Python truthiness (`bool(v)`): `None`, `False`, `0`, `""`, `[]`, `{}`
are falsy, everything else truthy. -/
def JVal.truthy : JVal → Bool
  | JVal.null => false
  | JVal.bool b => b
  | JVal.num q => decide (q ≠ 0)
  | JVal.str s => decide (s ≠ "")
  | JVal.arr l => !l.isEmpty
  | JVal.obj l => !l.isEmpty

/-- Python `v is None`. -/
def JVal.isNull : JVal → Bool
  | JVal.null => true
  | _ => false

/-- Python `v == s` for a string literal `s`: true exactly for the equal
string (values of other runtime types never compare equal to a `str`). -/
def JVal.isStrEq : JVal → String → Bool
  | JVal.str t, s => decide (t = s)
  | _, _ => false

/-- Is this value a Python `dict`? (`isinstance(v, dict)`). -/
def JVal.isDict : JVal → Bool
  | JVal.obj _ => true
  | _ => false

/-- Association-list lookup, i.e. Python `d.get(k)` membership semantics.
Keys in a Python dict are unique, so first match is the match. -/
def dlookup {α : Type} : List (String × α) → String → Option α
  | [], _ => none
  | (k, v) :: rest, key => if key = k then some v else dlookup rest key

/-- Python `d[k] = v`: replace the value in place if the key exists,
otherwise append the new pair (dicts preserve insertion order). -/
def dinsert {α : Type} : List (String × α) → String → α → List (String × α)
  | [], key, val => [(key, val)]
  | (k, v) :: rest, key, val =>
      if k = key then (key, val) :: rest else (k, v) :: dinsert rest key val

/-- Python `d.get(k, default)` on an object's field list. -/
def objGet (fields : List (String × JVal)) (key : String) (default : JVal) : JVal :=
  (dlookup fields key).getD default

/-- Python `float(v)` for the values that can reach it in the aggregator:
numbers are returned as-is and booleans coerce to 0/1; other arguments
raise (`TypeError`/`ValueError`), modelled as `none`.  (Python `float()`
also parses numeric strings; string arguments are modelled as failures
here, so the theorems below do not cover numeric-string fractions.) -/
def pyFloat : JVal → Option ℚ
  | JVal.num q => some q
  | JVal.bool b => some (if b then 1 else 0)
  | _ => none

/-- Python `a or b`. -/
def pyOr (a b : JVal) : JVal := if a.truthy then a else b

/-- Numeric value of a Python object for comparison with an `int`
(`v < 200` succeeds for numbers and booleans, raises `TypeError` otherwise). -/
def pyNumVal : JVal → Option ℚ
  | JVal.num q => some q
  | JVal.bool b => some (if b then 1 else 0)
  | _ => none

/-- Rendering of a value inside an f-string (`f"HTTP {status_code}"`).
Only numbers and booleans ever reach this in the modelled code (the
status code was already compared numerically).  Caveat: for non-integer
numbers Python prints the float repr (e.g. "404.5"); here such a value is
printed as a rational, which differs textually — all realistic status
codes are integers. -/
def pyFStr : JVal → String
  | JVal.num q => if q.den = 1 then toString q.num else toString q
  | JVal.bool b => if b then "True" else "False"
  | JVal.str s => s
  | JVal.null => "None"
  | JVal.arr _ => "[...]"
  | JVal.obj _ => "{...}"

-- ── Config: Antigravity model groups (ANTIGRAVITY_GROUPS in the source) ──────

/-- One entry of `ANTIGRAVITY_GROUPS`. -/
structure GroupDef where
  id : String
  label : String
  ids : List String
deriving DecidableEq

/-- The fixed Antigravity display-group configuration. -/
def ANTIGRAVITY_GROUPS : List GroupDef :=
  [ { id := "claude-gpt", label := "Claude/GPT",
      ids := [ "claude-sonnet-4-5-thinking", "claude-opus-4-5-thinking",
               "claude-opus-4-6-thinking", "claude-sonnet-4-5",
               "claude-sonnet-4-6", "gpt-oss-120b-medium" ] },
    { id := "gemini-3-pro", label := "Gemini 3 Pro",
      ids := [ "gemini-3-pro-high", "gemini-3-pro-low",
               "gemini-3.1-pro-high", "gemini-3.1-pro-low" ] },
    { id := "gemini-3-flash", label := "Gemini 3 Flash",
      ids := [ "gemini-3-flash", "gemini-3.1-flash-image" ] },
    { id := "gemini-2.5-pro", label := "Gemini 2.5 Pro",
      ids := [ "gemini-2.5-pro" ] },
    { id := "gemini-2-5-flash", label := "Gemini 2.5 Flash",
      ids := [ "gemini-2.5-flash", "gemini-2.5-flash-thinking" ] },
    { id := "gemini-2-5-flash-lite", label := "Gemini 2.5 Flash Lite",
      ids := [ "gemini-2.5-flash-lite" ] } ]

/-- The reverse lookup dict built at the top of `_build_antigravity_groups`:
`for group in ANTIGRAVITY_GROUPS: for mid in group["ids"]: model_to_group[mid] = group`. -/
def model_to_group : List (String × GroupDef) :=
  ANTIGRAVITY_GROUPS.foldl
    (fun m g => g.ids.foldl (fun m2 mid => dinsert m2 mid g) m) []

/-- `model_to_group.get(model_id)`. -/
def modelToGroup (mid : String) : Option GroupDef :=
  dlookup model_to_group mid

-- ── Data model: AntigravityModelQuota ───────────────────────────────────────

/-- Mirror of the `AntigravityModelQuota` dataclass.  `reset_time` is kept
as a raw `JVal` because the Python code stores whatever JSON value the
upstream supplied (the dataclass annotation is not enforced at runtime);
the `""` default is `JVal.str ""`. -/
structure AntigravityModelQuota where
  group_label : String
  remaining_fraction : Option ℚ
  reset_time : JVal
  models : List String

-- ── Aggregator: _build_antigravity_groups ───────────────────────────────────

/-- Extraction of `remaining` for one model entry (source lines 446-451):
`quota_info = info.get("quotaInfo", {})`, then the camelCase/snake_case
chain on `quota_info` if it is truthy, else on the top-level fields.
Result `none` models the `AttributeError` raised by `.get` when
`quotaInfo` is truthy but not a dict; `some JVal.null` is Python `None`. -/
def extractRemaining (fields : List (String × JVal)) : Option JVal :=
  let qi := objGet fields "quotaInfo" (JVal.obj [])
  if qi.truthy then
    match qi with
    | JVal.obj qf =>
        some (objGet qf "remainingFraction" (objGet qf "remaining_fraction" JVal.null))
    | _ => none
  else
    some (objGet fields "remainingFraction" (objGet fields "remaining_fraction" JVal.null))

/-- Extraction of `reset_time` for one model entry (source lines 452-456);
the innermost default is `""`. -/
def extractReset (fields : List (String × JVal)) : Option JVal :=
  let qi := objGet fields "quotaInfo" (JVal.obj [])
  if qi.truthy then
    match qi with
    | JVal.obj qf =>
        some (objGet qf "resetTime" (objGet qf "reset_time" (JVal.str "")))
    | _ => none
  else
    some (objGet fields "resetTime" (objGet fields "reset_time" (JVal.str "")))

/-- One iteration of the `for model_id, info in models.items()` loop of
`_build_antigravity_groups`, acting on the `group_data` dict.
`none` models an uncaught exception (`AttributeError` from `.get` on a
truthy non-dict `quotaInfo`, or `TypeError`/`ValueError` from `float`). -/
def buildStep (gd : List (String × AntigravityModelQuota)) (p : String × JVal) :
    Option (List (String × AntigravityModelQuota)) :=
  match p.2 with
  | JVal.obj fields =>
      match extractRemaining fields, extractReset fields with
      | some remaining, some reset_time =>
          match modelToGroup p.1 with
          | none => some gd
          | some gdef =>
              let g0 := (dlookup gd gdef.id).getD
                { group_label := gdef.label, remaining_fraction := none,
                  reset_time := JVal.str "", models := [] }
              let g1 := { g0 with models := g0.models ++ [p.1] }
              if remaining.isNull then
                some (dinsert gd gdef.id g1)
              else
                match pyFloat remaining with
                | none => none
                | some frac =>
                    match g1.remaining_fraction with
                    | none =>
                        some (dinsert gd gdef.id
                          { g1 with remaining_fraction := some frac,
                                    reset_time := pyOr reset_time g1.reset_time })
                    | some r =>
                        if frac < r then
                          some (dinsert gd gdef.id
                            { g1 with remaining_fraction := some frac,
                                      reset_time := pyOr reset_time g1.reset_time })
                        else
                          some (dinsert gd gdef.id g1)
      | _, _ => none
  | _ => some gd  -- `if not isinstance(info, dict): continue`

/-- The aggregation loop of `_build_antigravity_groups`. -/
def runBuild : List (String × JVal) → List (String × AntigravityModelQuota) →
    Option (List (String × AntigravityModelQuota))
  | [], gd => some gd
  | p :: rest, gd =>
      match buildStep gd p with
      | none => none
      | some gd2 => runBuild rest gd2

/-- Order used by `sorted(..., key=lambda x: x.group_label)`. -/
def labelLe (a b : AntigravityModelQuota) : Prop := a.group_label ≤ b.group_label

instance : DecidableRel labelLe := fun a b => by
  unfold labelLe; infer_instance

/-- `_build_antigravity_groups(models)`: iterate the raw model mapping,
aggregate per group (lowest remaining fraction wins), then return the
group values sorted by label.  Python's `sorted` is a stable sort; since
the configured labels are pairwise distinct, any stable sort by label
produces the same list, and insertion sort is used here.
`none` models an uncaught exception. -/
def build_antigravity_groups (models : List (String × JVal)) :
    Option (List AntigravityModelQuota) :=
  (runBuild models []).map
    (fun gd => List.insertionSort labelLe (gd.map Prod.snd))

-- ── Exceptions and the proxied-call oracle ──────────────────────────────────

/-- The Python exception kinds relevant to the fetchers.  `api_call`
raises `RuntimeError` (wrapping HTTP/connection errors) and the JSON
decoder raises `json.JSONDecodeError`; `otherError` stands for any other
exception an attempt might surface.  The payload is `str(exc)`. -/
inductive PyExc where
  | runtimeError : String → PyExc
  | jsonDecodeError : String → PyExc
  | keyError : String → PyExc
  | otherError : String → PyExc
deriving DecidableEq

/-- `str(exc)` as used for `quota.error = str(exc)`. -/
def PyExc.msg : PyExc → String
  | PyExc.runtimeError m => m
  | PyExc.jsonDecodeError m => m
  | PyExc.keyError m => m
  | PyExc.otherError m => m

/-- Caught by `except (RuntimeError, json.JSONDecodeError, KeyError)`
in `fetch_codex_quota`. -/
def PyExc.caughtByCodex : PyExc → Bool
  | PyExc.runtimeError _ => true
  | PyExc.jsonDecodeError _ => true
  | PyExc.keyError _ => true
  | PyExc.otherError _ => false

/-- Caught by `except (RuntimeError, json.JSONDecodeError)` in
`fetch_antigravity_quota`. -/
def PyExc.caughtByAntigravity : PyExc → Bool
  | PyExc.runtimeError _ => true
  | PyExc.jsonDecodeError _ => true
  | _ => false

/-- Behavior of one `api_call` invocation: the proxied call either raises
or returns a decoded JSON value.  The management API and network are
external collaborators, so this is a parameter of the fetchers.  Within
one fetch only the target URL varies across invocations, so the
Antigravity oracle is indexed by URL. -/
inductive ApiOutcome where
  | raised : PyExc → ApiOutcome
  | returned : JVal → ApiOutcome

/-- `body = json.loads(body_str) if isinstance(body_str, str) else body_str`.
`loads` abstracts `json.loads` (a library routine); its `Except.error`
carries `str` of the raised `json.JSONDecodeError`. -/
def decodeBody (loads : String → Except String JVal) : JVal → Except String JVal
  | JVal.str s => loads s
  | v => Except.ok v

-- ── Data model: credential records and quota results ────────────────────────

/-- Mirror of the `AuthFile` dataclass.  Fields hold raw `JVal`s because
the Python code copies whatever the JSON carried (dataclass annotations
are not enforced at runtime); string defaults are `JVal.str ...`. -/
structure AuthFile where
  name : JVal
  provider : JVal
  auth_index : JVal
  email : JVal
  status : JVal
  status_message : JVal
  disabled : JVal
  unavailable : JVal
  label : JVal
  account_type : JVal
  chatgpt_account_id : JVal
  plan_type : JVal
  project_id : JVal

/-- Mirror of the `CodexQuota` dataclass (same caveat on field types). -/
structure CodexQuota where
  email : JVal
  plan_type : JVal
  primary_used_pct : JVal
  primary_reset_seconds : JVal
  secondary_used_pct : JVal
  secondary_reset_seconds : JVal
  limit_reached : JVal
  error : String

/-- Mirror of the `AntigravityQuota` dataclass. -/
structure AntigravityQuota where
  email : JVal
  groups : List AntigravityModelQuota
  error : String

/-- `CodexQuota(email=af.email, plan_type=af.plan_type)` with dataclass
defaults for the rest. -/
def initCodexQuota (af : AuthFile) : CodexQuota :=
  { email := af.email, plan_type := af.plan_type,
    primary_used_pct := JVal.null, primary_reset_seconds := JVal.null,
    secondary_used_pct := JVal.null, secondary_reset_seconds := JVal.null,
    limit_reached := JVal.bool false, error := "" }

-- ── Codex fetcher: fetch_codex_quota ────────────────────────────────────────

/-- `fetch_codex_quota(af)` (source lines 304-361).  The result's first
component is `none` when the Python function raises an uncaught exception
(e.g. `AttributeError` from `.get` on a non-dict); the second component
records whether the proxied `api_call` was issued. -/
def fetch_codex_quota (loads : String → Except String JVal) (af : AuthFile)
    (call : ApiOutcome) : Option CodexQuota × Bool :=
  let quota := initCodexQuota af
  if !af.auth_index.truthy then
    (some { quota with error := "missing auth_index" }, false)
  else if !af.chatgpt_account_id.truthy then
    (some { quota with error := "missing chatgpt_account_id" }, false)
  else
    match call with
    | ApiOutcome.raised e =>
        if e.caughtByCodex then (some { quota with error := e.msg }, true)
        else (none, true)
    | ApiOutcome.returned result =>
        match result with
        | JVal.obj rf =>
            let status_code := objGet rf "status_code" (JVal.num 0)
            match pyNumVal status_code with
            | none => (none, true)  -- TypeError comparing a non-number, uncaught
            | some sc =>
                if sc < 200 ∨ 300 ≤ sc then
                  (some { quota with error := "HTTP " ++ pyFStr status_code }, true)
                else
                  let body_str := objGet rf "body" (JVal.str "")
                  if !body_str.truthy then
                    (some { quota with error := "empty response" }, true)
                  else
                    match decodeBody loads body_str with
                    | Except.error m => (some { quota with error := m }, true)
                    | Except.ok body =>
                        match body with
                        | JVal.obj bf =>
                            let quota2 :=
                              { quota with plan_type := objGet bf "plan_type" af.plan_type }
                            match objGet bf "rate_limit" (JVal.obj []) with
                            | JVal.obj rl =>
                                let quota3 :=
                                  { quota2 with
                                    limit_reached := objGet rl "limit_reached" (JVal.bool false) }
                                let primary := objGet rl "primary_window" (JVal.obj [])
                                let afterPrimary : Option CodexQuota :=
                                  if primary.truthy then
                                    match primary with
                                    | JVal.obj pw =>
                                        some { quota3 with
                                          primary_used_pct := objGet pw "used_percent" JVal.null,
                                          primary_reset_seconds :=
                                            objGet pw "reset_after_seconds" JVal.null }
                                    | _ => none  -- truthy non-dict window, uncaught
                                  else some quota3
                                match afterPrimary with
                                | none => (none, true)
                                | some quota4 =>
                                    let secondary := objGet rl "secondary_window" (JVal.obj [])
                                    if secondary.truthy then
                                      match secondary with
                                      | JVal.obj sw =>
                                          (some { quota4 with
                                            secondary_used_pct := objGet sw "used_percent" JVal.null,
                                            secondary_reset_seconds :=
                                              objGet sw "reset_after_seconds" JVal.null }, true)
                                      | _ => (none, true)
                                    else (some quota4, true)
                            | _ => (none, true)  -- rate_limit present but not a dict
                        | _ => (none, true)  -- decoded body not a dict
        | _ => (none, true)  -- api_call returned a non-dict JSON value

-- ── Antigravity fetcher: fetch_antigravity_quota ────────────────────────────

/-- The fixed ordered endpoint list `ANTIGRAVITY_QUOTA_URLS`. -/
def ANTIGRAVITY_QUOTA_URLS : List String :=
  [ "https://daily-cloudcode-pa.googleapis.com/v1internal:fetchAvailableModels",
    "https://daily-cloudcode-pa.sandbox.googleapis.com/v1internal:fetchAvailableModels",
    "https://cloudcode-pa.googleapis.com/v1internal:fetchAvailableModels" ]

/-- Classification of one endpoint attempt inside the `for url in
ANTIGRAVITY_QUOTA_URLS` loop: retryable failure (with the recorded
reason), success (with the non-empty `models` dict), or an uncaught
exception. -/
inductive AgStep where
  | fail : String → AgStep
  | success : List (String × JVal) → AgStep
  | crash : AgStep

/-- One attempt of the Antigravity loop body up to the `models` check
(source lines 386-411). -/
def agAttempt (loads : String → Except String JVal) (outcome : ApiOutcome) : AgStep :=
  match outcome with
  | ApiOutcome.raised e =>
      if e.caughtByAntigravity then AgStep.fail e.msg else AgStep.crash
  | ApiOutcome.returned result =>
      match result with
      | JVal.obj rf =>
          let status_code := objGet rf "status_code" (JVal.num 0)
          match pyNumVal status_code with
          | none => AgStep.crash
          | some sc =>
              if sc < 200 ∨ 300 ≤ sc then
                AgStep.fail ("HTTP " ++ pyFStr status_code)
              else
                let body_str := objGet rf "body" (JVal.str "")
                if !body_str.truthy then AgStep.fail "empty response"
                else
                  match decodeBody loads body_str with
                  | Except.error m => AgStep.fail m
                  | Except.ok body =>
                      match body with
                      | JVal.obj bf =>
                          match objGet bf "models" (JVal.obj []) with
                          | JVal.obj mf =>
                              if mf.isEmpty then AgStep.fail "no models in response"
                              else AgStep.success mf
                          | _ => AgStep.fail "no models in response"
                      | _ => AgStep.crash  -- body.get on a non-dict, uncaught
      | _ => AgStep.crash

/-- The endpoint loop of `fetch_antigravity_quota`, carrying `last_error`.
Returns the function result together with the list of URLs for which a
proxied call was issued, in order. -/
def agLoop (loads : String → Except String JVal) (oracle : String → ApiOutcome)
    (quota : AntigravityQuota) :
    List String → String → Option AntigravityQuota × List String
  | [], last_error =>
      (some { quota with
        error := if last_error = "" then "all endpoints failed" else last_error }, [])
  | url :: rest, _last_error =>
      match agAttempt loads (oracle url) with
      | AgStep.crash => (none, [url])
      | AgStep.fail r =>
          let next := agLoop loads oracle quota rest r
          (next.1, url :: next.2)
      | AgStep.success models =>
          match build_antigravity_groups models with
          | none => (none, [url])
          | some gs => (some { quota with groups := gs }, [url])

/-- `fetch_antigravity_quota(af)` (source lines 367-421).  The resolved
project id and the JSON request body only shape the proxied request and
are absorbed into the oracle, which is indexed by the one varying payload
field, the URL. -/
def fetch_antigravity_quota (loads : String → Except String JVal) (af : AuthFile)
    (oracle : String → ApiOutcome) : Option AntigravityQuota × List String :=
  let quota : AntigravityQuota := { email := af.email, groups := [], error := "" }
  if !af.auth_index.truthy then
    (some { quota with error := "missing auth_index" }, [])
  else
    agLoop loads oracle quota ANTIGRAVITY_QUOTA_URLS ""

-- ── Directory client: get_auth_files ────────────────────────────────────────

/-- `provider in TARGET_PROVIDERS` where `TARGET_PROVIDERS` is the set
literal with the two supported provider tags. -/
def providerSupported (p : JVal) : Bool :=
  p.isStrEq "codex" || p.isStrEq "antigravity"

/-- Construction of one `AuthFile` record from a directory entry
(source lines 278-296), including the codex-specific `id_token` fields.
`none` models the `AttributeError` from `.get` on a truthy non-dict
`id_token` of a codex entry. -/
def parseAuthItem (fields : List (String × JVal)) : Option AuthFile :=
  let provider := objGet fields "provider" (JVal.str "")
  let af : AuthFile :=
    { name := objGet fields "name" (JVal.str ""),
      provider := provider,
      auth_index := pyOr (objGet fields "auth_index" (JVal.str ""))
        (objGet fields "authIndex" (JVal.str "")),
      email := objGet fields "email" (JVal.str ""),
      status := objGet fields "status" (JVal.str "unknown"),
      status_message := objGet fields "status_message" (JVal.str ""),
      disabled := objGet fields "disabled" (JVal.bool false),
      unavailable := objGet fields "unavailable" (JVal.bool false),
      label := objGet fields "label" (JVal.str ""),
      account_type := objGet fields "account_type" (JVal.str ""),
      chatgpt_account_id := JVal.str "", plan_type := JVal.str "",
      project_id := JVal.str "" }
  let id_token := objGet fields "id_token" (JVal.obj [])
  if id_token.truthy && provider.isStrEq "codex" then
    match id_token with
    | JVal.obj tf =>
        some { af with
          chatgpt_account_id := objGet tf "chatgpt_account_id" (JVal.str ""),
          plan_type := objGet tf "plan_type" (JVal.str "") }
    | _ => none
  else some af

/-- Python iteration `for item in v`: lists yield elements, strings yield
one-character strings, dicts yield their keys; other values raise
`TypeError` (modelled as `none`). -/
def pyIter : JVal → Option (List JVal)
  | JVal.arr l => some l
  | JVal.str s => some (s.data.map (fun c => JVal.str (String.singleton c)))
  | JVal.obj kvs => some (kvs.map (fun p => JVal.str p.1))
  | _ => none

/-- The `for item in resp.get("files", [])` loop of `get_auth_files`:
skip entries whose provider is unsupported, append parsed records in
order.  A non-dict entry raises `AttributeError` (modelled as `none`). -/
def authFilesLoop : List JVal → Option (List AuthFile)
  | [] => some []
  | item :: rest =>
      match item with
      | JVal.obj fields =>
          if providerSupported (objGet fields "provider" (JVal.str "")) then
            match parseAuthItem fields with
            | none => none
            | some af =>
                match authFilesLoop rest with
                | none => none
                | some others => some (af :: others)
          else authFilesLoop rest
      | _ => none

/-- `get_auth_files()` applied to the decoded directory response
(source lines 264-298). -/
def get_auth_files (resp : JVal) : Option (List AuthFile) :=
  match resp with
  | JVal.obj rf =>
      match pyIter (objGet rf "files" (JVal.arr [])) with
      | none => none
      | some items => authFilesLoop items
  | _ => none

-- ── Shape predicate under which the Codex fetcher cannot raise ──────────────

/-- A usage-window value the Codex fetcher navigates safely: falsy
(skipped) or a dict. -/
def windowShapeOk (w : JVal) : Bool := !w.truthy || w.isDict

/-- The proxied-call behaviors `fetch_codex_quota` survives without an
uncaught exception: a caught exception kind, or a dict response whose
`status_code` is numeric and which, when 2xx with a truthy body, decodes
to a dict whose `rate_limit` (if present) is a dict with falsy-or-dict
windows.  Mirrors exactly the navigation assumptions of source lines
332-356. -/
def codexResponseOk (loads : String → Except String JVal) (call : ApiOutcome) : Bool :=
  match call with
  | ApiOutcome.raised e => e.caughtByCodex
  | ApiOutcome.returned result =>
      match result with
      | JVal.obj rf =>
          match pyNumVal (objGet rf "status_code" (JVal.num 0)) with
          | none => false
          | some sc =>
              if sc < 200 ∨ 300 ≤ sc then true
              else
                let body_str := objGet rf "body" (JVal.str "")
                if !body_str.truthy then true
                else
                  match decodeBody loads body_str with
                  | Except.error _ => true
                  | Except.ok body =>
                      match body with
                      | JVal.obj bf =>
                          match objGet bf "rate_limit" (JVal.obj []) with
                          | JVal.obj rl =>
                              windowShapeOk (objGet rl "primary_window" (JVal.obj [])) &&
                                windowShapeOk (objGet rl "secondary_window" (JVal.obj []))
                          | _ => false
                      | _ => false
      | _ => false

-- ── Concrete instances used by witnesses and counterexamples ────────────────

/-- A JSON decoder stub for scenarios whose bodies are already decoded
values (never consulted there). -/
def loadsU : String → Except String JVal := fun _ => Except.error "unused"

/-- A concrete codex credential record with the given routing index and
account id. -/
def sampleAuth (idx acct : JVal) : AuthFile :=
  { name := JVal.str "codex-1.json", provider := JVal.str "codex", auth_index := idx,
    email := JVal.str "u@x.com", status := JVal.str "unknown",
    status_message := JVal.str "", disabled := JVal.bool false,
    unavailable := JVal.bool false, label := JVal.str "",
    account_type := JVal.str "", chatgpt_account_id := acct,
    plan_type := JVal.str "plus", project_id := JVal.str "" }

/-- A proxied 2xx response whose body is the JSON number 1: `body.get`
then raises `AttributeError` in the Python code. -/
def callNonMappingBody : ApiOutcome :=
  ApiOutcome.returned (JVal.obj
    [("status_code", JVal.num (mkRat 200 1)), ("body", JVal.num (mkRat 1 1))])

/-- A model entry whose non-empty `quotaInfo` lacks both remaining-fraction
keys while a top-level `remainingFraction` is present. -/
def infoC4 : List (String × JVal) :=
  [ ("quotaInfo", JVal.obj [("resetTime", JVal.str "T")]),
    ("remainingFraction", JVal.num (mkRat 1 2)) ]

/-- The three Antigravity endpoint URLs by position. -/
def agUrl1 : String :=
  "https://daily-cloudcode-pa.googleapis.com/v1internal:fetchAvailableModels"

def agUrl2 : String :=
  "https://daily-cloudcode-pa.sandbox.googleapis.com/v1internal:fetchAvailableModels"

def agUrl3 : String :=
  "https://cloudcode-pa.googleapis.com/v1internal:fetchAvailableModels"

/-- An oracle on which every endpoint raises a caught transport error. -/
def oracleAllFail : String → ApiOutcome :=
  fun _ => ApiOutcome.raised (PyExc.runtimeError "Connection error: boom")

/-- An oracle whose first endpoint answers 2xx with a non-empty `models`
mapping containing a fraction value (a JSON object) that `float()`
rejects with a `TypeError`. -/
def oracleSuccessCrash : String → ApiOutcome :=
  fun u =>
    if u = agUrl1 then
      ApiOutcome.returned (JVal.obj
        [ ("status_code", JVal.num (mkRat 200 1)),
          ("body", JVal.obj
            [("models", JVal.obj
              [("gemini-2.5-pro", JVal.obj [("remainingFraction", JVal.obj [])])])]) ])
    else ApiOutcome.raised (PyExc.otherError "unreachable")

/-- An Antigravity credential record (only `auth_index` and `email` feed
the fetch; the project id shapes the proxied payload absorbed by the
oracle). -/
def sampleAgAuth : AuthFile :=
  { name := JVal.str "antigravity-1.json", provider := JVal.str "antigravity",
    auth_index := JVal.str "a2", email := JVal.str "v@y.com",
    status := JVal.str "unknown", status_message := JVal.str "",
    disabled := JVal.bool false, unavailable := JVal.bool false,
    label := JVal.str "", account_type := JVal.str "",
    chatgpt_account_id := JVal.str "", plan_type := JVal.str "",
    project_id := JVal.str "" }

/-- An oracle on which the first two endpoints fail with HTTP errors and
the third answers 2xx with a well-formed non-empty `models` mapping. -/
def oracleThirdSuccess : String → ApiOutcome :=
  fun u =>
    if u = agUrl3 then
      ApiOutcome.returned (JVal.obj
        [ ("status_code", JVal.num 200),
          ("body", JVal.obj
            [("models", JVal.obj
              [("gemini-2.5-pro", JVal.obj
                [("quotaInfo", JVal.obj
                  [ ("remainingFraction", JVal.num (mkRat 2 5)),
                    ("resetTime", JVal.str "2026-01-01T00:00:00Z") ])])])]) ])
    else ApiOutcome.raised (PyExc.runtimeError ("HTTP 503: " ++ u))

-- ── Reference semantics for the aggregator (used to state C1/C7/C10) ────────

/-- Does this raw entry contribute to the group with id `gid`?  True when
the entry value is a dict and the model id maps to that group. -/
def isGroupMemberEntry (gid : String) (p : String × JVal) : Bool :=
  match p.2 with
  | JVal.obj _ =>
      match modelToGroup p.1 with
      | some gdef => decide (gdef.id = gid)
      | none => false
  | _ => false

/-- The member model ids a group collects from the raw mapping, in input
order. -/
def groupMembers (gdef : GroupDef) (models : List (String × JVal)) : List String :=
  (models.filter (isGroupMemberEntry gdef.id)).map Prod.fst

/-- The (fraction?, reset-time) pair one entry contributes: `none` in the
first component is Python `None` remaining; the outer `none` is a crash
(extraction `AttributeError` or `float` conversion error). -/
def entryData (info : JVal) : Option (Option ℚ × JVal) :=
  match info with
  | JVal.obj fields =>
      match extractRemaining fields, extractReset fields with
      | some rv, some t =>
          if rv.isNull then some (none, t)
          else (pyFloat rv).map (fun q => (some q, t))
      | _, _ => none
  | _ => none

/-- The extracted data of a group's contributing entries, in input order. -/
def groupEntries (gdef : GroupDef) (models : List (String × JVal)) :
    List (Option ℚ × JVal) :=
  (models.filter (isGroupMemberEntry gdef.id)).filterMap (fun p => entryData p.2)

/-- One step of the lowest-fraction-wins accumulation, exactly as the
loop body updates `(g.remaining_fraction, g.reset_time)`. -/
def minStep (st : Option ℚ × JVal) (e : Option ℚ × JVal) : Option ℚ × JVal :=
  match e.1 with
  | none => st
  | some q =>
      match st.1 with
      | none => (some q, pyOr e.2 st.2)
      | some m => if q < m then (some q, pyOr e.2 st.2) else st

/-- The accumulated (fraction?, reset-time) state over a list of entry
data, from the fresh-group initial state. -/
def minState (l : List (Option ℚ × JVal)) : Option ℚ × JVal :=
  l.foldl minStep (none, JVal.str "")

/-- The minimum of a list of rationals as an optional value. -/
def qListMin (l : List ℚ) : Option ℚ :=
  l.foldl (fun a q =>
    match a with
    | none => some q
    | some m => some (min m q)) none

/-- The fractions a group's members contribute, in input order. -/
def groupFracs (gdef : GroupDef) (models : List (String × JVal)) : List ℚ :=
  (groupEntries gdef models).filterMap Prod.fst

/-- The `ModelGroupQuota` value a group ends up with, phrased through the
reference accumulation. -/
def mkGroupRef (gdef : GroupDef) (models : List (String × JVal)) :
    AntigravityModelQuota :=
  { group_label := gdef.label,
    remaining_fraction := (minState (groupEntries gdef models)).1,
    reset_time := (minState (groupEntries gdef models)).2,
    models := groupMembers gdef models }

/-- The result list before sorting, as an association list over group
ids, restricted to groups with members. -/
def rhsAssoc (models : List (String × JVal)) : List (String × AntigravityModelQuota) :=
  (ANTIGRAVITY_GROUPS.filter (fun gdef => !(groupMembers gdef models).isEmpty)).map
    (fun gdef => (gdef.id, mkGroupRef gdef models))

/-- The invariant tying the loop's `group_data` dict to the processed
prefix of the raw mapping. -/
def BuildInv (gd : List (String × AntigravityModelQuota))
    (pre : List (String × JVal)) : Prop :=
  (gd.map Prod.fst).Nodup ∧
  (∀ k, k ∈ gd.map Prod.fst → ∃ gdef, gdef ∈ ANTIGRAVITY_GROUPS ∧ k = gdef.id) ∧
  (∀ gdef ∈ ANTIGRAVITY_GROUPS,
    dlookup gd gdef.id =
      if groupMembers gdef pre = [] then none else some (mkGroupRef gdef pre))

/-- Projection of a group result to the order-independent components. -/
def projLF (g : AntigravityModelQuota) : String × Option ℚ :=
  (g.group_label, g.remaining_fraction)

/-- The label order transported along `projLF`. -/
def projLe (a b : String × Option ℚ) : Prop := a.1 ≤ b.1

instance : DecidableRel projLe := fun a b => by
  unfold projLe; infer_instance

instance : IsTotal AntigravityModelQuota labelLe :=
  ⟨fun a b => le_total a.group_label b.group_label⟩

instance : IsTrans AntigravityModelQuota labelLe :=
  ⟨fun _ _ _ h1 h2 => le_trans h1 h2⟩

instance : IsTotal (String × Option ℚ) projLe :=
  ⟨fun a b => le_total a.1 b.1⟩

instance : IsTrans (String × Option ℚ) projLe :=
  ⟨fun _ _ _ h1 h2 => le_trans h1 h2⟩

-- ── Concrete aggregator instances ───────────────────────────────────────────

/-- Two members of one group: the second attains the strict minimum but
supplies an empty reset time. -/
def cexC1 : List (String × JVal) :=
  [ ("claude-sonnet-4-5", JVal.obj
      [("remainingFraction", JVal.num (mkRat 1 2)), ("resetTime", JVal.str "T1")]),
    ("claude-sonnet-4-6", JVal.obj
      [("remainingFraction", JVal.num (mkRat 3 10)), ("resetTime", JVal.str "")]) ]

/-- The same two entries in the opposite order. -/
def cexC1swapped : List (String × JVal) :=
  [ ("claude-sonnet-4-6", JVal.obj
      [("remainingFraction", JVal.num (mkRat 3 10)), ("resetTime", JVal.str "")]),
    ("claude-sonnet-4-5", JVal.obj
      [("remainingFraction", JVal.num (mkRat 1 2)), ("resetTime", JVal.str "T1")]) ]

/-- The group value produced from `cexC1`. -/
def cexC1out : AntigravityModelQuota :=
  { group_label := "Claude/GPT", remaining_fraction := some (mkRat 3 10),
    reset_time := JVal.str "T1",
    models := ["claude-sonnet-4-5", "claude-sonnet-4-6"] }

/-- The group value produced from `cexC1swapped`. -/
def cexC1swappedOut : AntigravityModelQuota :=
  { group_label := "Claude/GPT", remaining_fraction := some (mkRat 3 10),
    reset_time := JVal.str "",
    models := ["claude-sonnet-4-6", "claude-sonnet-4-5"] }

/-- Two members where the minimum-attaining member supplies a non-empty
reset time. -/
def minModels : List (String × JVal) :=
  [ ("claude-sonnet-4-5", JVal.obj
      [("remainingFraction", JVal.num (mkRat 1 2)), ("resetTime", JVal.str "T1")]),
    ("claude-sonnet-4-6", JVal.obj
      [("remainingFraction", JVal.num (mkRat 3 10)), ("resetTime", JVal.str "T2")]) ]

/-- The group value produced from `minModels`. -/
def minOut : AntigravityModelQuota :=
  { group_label := "Claude/GPT", remaining_fraction := some (mkRat 3 10),
    reset_time := JVal.str "T2",
    models := ["claude-sonnet-4-5", "claude-sonnet-4-6"] }

/-- The first configured group (used to instantiate witnesses). -/
def claudeGroup : GroupDef :=
  { id := "claude-gpt", label := "Claude/GPT",
    ids := [ "claude-sonnet-4-5-thinking", "claude-opus-4-5-thinking",
             "claude-opus-4-6-thinking", "claude-sonnet-4-5",
             "claude-sonnet-4-6", "gpt-oss-120b-medium" ] }

-- ── Concrete directory instances ────────────────────────────────────────────

/-- Directory entries: a codex entry (nested `id_token`), an unsupported
provider entry, and an antigravity entry missing most optional fields. -/
def dirItems : List JVal :=
  [ JVal.obj
      [ ("provider", JVal.str "codex"), ("name", JVal.str "codex-1.json"),
        ("auth_index", JVal.str "a1"), ("email", JVal.str "u@x.com"),
        ("id_token", JVal.obj
          [ ("chatgpt_account_id", JVal.str "acct1"),
            ("plan_type", JVal.str "plus") ]) ],
    JVal.obj [("provider", JVal.str "gemini"), ("name", JVal.str "g.json")],
    JVal.obj [("provider", JVal.str "antigravity"), ("email", JVal.str "v@y.com")] ]

/-- The directory response wrapping `dirItems`. -/
def dirResp : JVal := JVal.obj [("files", JVal.arr dirItems)]

/-- The parsed record of the codex entry of `dirItems`. -/
def codexAF : AuthFile :=
  { name := JVal.str "codex-1.json", provider := JVal.str "codex",
    auth_index := JVal.str "a1", email := JVal.str "u@x.com",
    status := JVal.str "unknown", status_message := JVal.str "",
    disabled := JVal.bool false, unavailable := JVal.bool false,
    label := JVal.str "", account_type := JVal.str "",
    chatgpt_account_id := JVal.str "acct1", plan_type := JVal.str "plus",
    project_id := JVal.str "" }

/-- The parsed record of the antigravity entry of `dirItems`: every
absent optional field is defaulted. -/
def agAF : AuthFile :=
  { name := JVal.str "", provider := JVal.str "antigravity",
    auth_index := JVal.str "", email := JVal.str "v@y.com",
    status := JVal.str "unknown", status_message := JVal.str "",
    disabled := JVal.bool false, unavailable := JVal.bool false,
    label := JVal.str "", account_type := JVal.str "",
    chatgpt_account_id := JVal.str "", plan_type := JVal.str "",
    project_id := JVal.str "" }

-- ── Reset-time formatters (clock, parser and renderer abstracted) ───────────

/-- `reset_time.replace("Z", "+00:00")`: the pattern is the single
character "Z", so Python's `str.replace` substitutes every occurrence of
that character; this char-wise model is exact for that call (core
`String.replace` is not kernel-reducible, so the substitution is spelled
out). -/
def replaceZ (s : String) : String :=
  String.mk (s.data.foldr
    (fun c acc =>
      if c = 'Z' then '+' :: '0' :: '0' :: ':' :: '0' :: '0' :: acc
      else c :: acc) [])

/-- `_fmt_reset_abs(seconds)` (source lines 490-501) with the wall clock
and the local calendar rendering abstracted as parameters, exactly as
`api_call` and `json.loads` are elsewhere in this file: `now` is the
current instant as a point on the time line (in seconds), and `render t`
is the "M月D日 HH:MM" local-calendar rendering of instant `t`
(`datetime.now() + timedelta(seconds=s)` is the instant `now + s`). -/
def fmt_reset_abs (now : ℚ) (render : ℚ → String) (seconds : Option ℚ) : String :=
  match seconds with
  | none => "now"
  | some s => if s ≤ 0 then "now" else render (now + s)

/-- `_fmt_reset_time(reset_time)` (source lines 504-520) with the clock,
the ISO-8601 parser and the local rendering abstracted.  `parseIso`
models `datetime.fromisoformat` (a version-dependent library routine
outside this repository): it yields the parsed instant, or `none` when
the caught `ValueError`/`TypeError` is raised instead (malformed
strings; naive timestamps, whose subtraction from the timezone-aware
clock raises `TypeError`).  `render t` renders instant `t` in the local
timezone — `reset_dt.astimezone()` preserves the instant, and
`(reset_dt - now).total_seconds() <= 0` is `t - now ≤ 0`. -/
def fmt_reset_time (now : ℚ) (render : ℚ → String)
    (parseIso : String → Option ℚ) (reset_time : String) : String :=
  if reset_time = "" then ""
  else
    match parseIso (replaceZ reset_time) with
    | none => ""
    | some t => if t - now ≤ 0 then "resetting" else render t

/-- A concrete ISO parser stub for the formatter witness. -/
def sampleParseIso : String → Option ℚ :=
  fun s => if s = "2026-01-01T00:00:00+00:00" then some 200 else none

/-- A concrete local renderer stub for the formatter witness. -/
def sampleRender : ℚ → String := fun _ => "1月1日 08:00"

-- ════════════════════════════════ Theorems ═════════════════════════════════

/-- C6: a Codex fetch with an empty proxy-routing index issues no proxied
call and reports exactly "missing auth_index"; with a non-empty routing
index but an empty provider account id it issues no proxied call and
reports exactly "missing chatgpt_account_id". -/
theorem codex_preconditions_no_call (loads : String → Except String JVal)
    (af : AuthFile) (call : ApiOutcome) :
    (af.auth_index = JVal.str "" →
      fetch_codex_quota loads af call =
        (some { initCodexQuota af with error := "missing auth_index" }, false)) ∧
    (∀ s : String, af.auth_index = JVal.str s → s ≠ "" →
      af.chatgpt_account_id = JVal.str "" →
      fetch_codex_quota loads af call =
        (some { initCodexQuota af with error := "missing chatgpt_account_id" }, false)) := by
  constructor
  · intro h
    simp [fetch_codex_quota, h, JVal.truthy]
  · intro s hs hne hacct
    simp [fetch_codex_quota, hs, hacct, hne, JVal.truthy]

/-- Witness for C6 at concrete credential records. -/
theorem codex_preconditions_no_call_witness :
    fetch_codex_quota loadsU (sampleAuth (JVal.str "") (JVal.str "acct1"))
        (ApiOutcome.returned JVal.null) =
      (some { initCodexQuota (sampleAuth (JVal.str "") (JVal.str "acct1")) with
        error := "missing auth_index" }, false) ∧
    fetch_codex_quota loadsU (sampleAuth (JVal.str "a1") (JVal.str ""))
        (ApiOutcome.returned JVal.null) =
      (some { initCodexQuota (sampleAuth (JVal.str "a1") (JVal.str "")) with
        error := "missing chatgpt_account_id" }, false) :=
  ⟨(codex_preconditions_no_call loadsU (sampleAuth (JVal.str "") (JVal.str "acct1"))
      (ApiOutcome.returned JVal.null)).1 rfl,
   (codex_preconditions_no_call loadsU (sampleAuth (JVal.str "a1") (JVal.str ""))
      (ApiOutcome.returned JVal.null)).2 "a1" rfl (by decide) rfl⟩

/-- C5 counterexample: a proxied 2xx answer whose body is the JSON number
1 makes `fetch_codex_quota` raise an uncaught `AttributeError` at
`body.get` (modelled as result `none`) instead of returning a
`CodexQuota` — refuting "this fetcher never raises to its caller". -/
theorem codex_nonmapping_body_raises :
    fetch_codex_quota loadsU (sampleAuth (JVal.str "a1") (JVal.str "acct1"))
      callNonMappingBody = (none, true) := by rfl

/-- C5 amended: the fetcher returns a `CodexQuota` whenever the proxied
answer has the navigated shape (`codexResponseOk`: caught exception
kinds, numeric status code, and — on a 2xx answer with a truthy body — a
body decoding to a mapping whose `rate_limit` and truthy windows are
mappings); every caught `RuntimeError`/`JSONDecodeError`/`KeyError`
raised by the proxied call is recorded as the result's error string
(`str(exc)`), and so is a `json.JSONDecodeError` from decoding a 2xx
response's string body.  Outside that shape the fetcher can raise
(see `codex_nonmapping_body_raises`). -/
theorem codex_shape_ok_returns (loads : String → Except String JVal)
    (af : AuthFile) (call : ApiOutcome) :
    (codexResponseOk loads call = true →
      ((fetch_codex_quota loads af call).1).isSome = true) ∧
    (af.auth_index.truthy = true → af.chatgpt_account_id.truthy = true →
      ∀ e, call = ApiOutcome.raised e → e.caughtByCodex = true →
        fetch_codex_quota loads af call =
          (some { initCodexQuota af with error := e.msg }, true)) ∧
    (af.auth_index.truthy = true → af.chatgpt_account_id.truthy = true →
      ∀ rf s m, call = ApiOutcome.returned (JVal.obj rf) →
        (∃ q, pyNumVal (objGet rf "status_code" (JVal.num 0)) = some q ∧
          ¬(q < 200 ∨ 300 ≤ q)) →
        objGet rf "body" (JVal.str "") = JVal.str s → s ≠ "" →
        loads s = Except.error m →
        fetch_codex_quota loads af call =
          (some { initCodexQuota af with error := m }, true)) := by
  refine ⟨?_, ?_, ?_⟩
  case refine_2 =>
    intro hidx hacct e hcall hce
    subst hcall
    simp [fetch_codex_quota, hidx, hacct, hce]
  case refine_3 =>
    intro hidx hacct rf s m hcall hq2 hbody hs hload
    obtain ⟨q, hq, hnq⟩ := hq2
    subst hcall
    simp only [fetch_codex_quota, hidx, hacct, Bool.not_true, Bool.false_eq_true,
      if_false, hq]
    rw [if_neg hnq, hbody]
    have hb : (JVal.str s).truthy = true := by simp [JVal.truthy, hs]
    simp only [hb, Bool.not_true, Bool.false_eq_true, if_false, decodeBody, hload]
  intro h
  unfold codexResponseOk at h
  unfold fetch_codex_quota
  by_cases hidx : af.auth_index.truthy
  · by_cases hacct : af.chatgpt_account_id.truthy
    · simp only [hidx, hacct, Bool.not_true, Bool.false_eq_true, if_false]
      cases call with
      | raised e => simp_all
      | returned result =>
          cases result with
          | null => simp_all
          | bool b => simp_all
          | num q => simp_all
          | str s => simp_all
          | arr l => simp_all
          | obj rf =>
            cases hsc : pyNumVal (objGet rf "status_code" (JVal.num 0)) with
            | none => simp_all
            | some sc =>
                simp only [hsc] at h ⊢
                by_cases hlt : sc < 200 ∨ 300 ≤ sc
                · simp [hlt]
                · simp only [hlt, if_false] at h ⊢
                  by_cases hbody : (objGet rf "body" (JVal.str "")).truthy
                  · simp only [hbody, Bool.not_true, Bool.false_eq_true, if_false] at h ⊢
                    cases hdec : decodeBody loads (objGet rf "body" (JVal.str "")) with
                    | error m => simp [hdec]
                    | ok body =>
                        simp only [hdec] at h ⊢
                        cases body with
                        | null => simp_all
                        | bool b => simp_all
                        | num q => simp_all
                        | str s2 => simp_all
                        | arr l => simp_all
                        | obj bf =>
                          cases hrl : objGet bf "rate_limit" (JVal.obj []) with
                          | null => simp_all
                          | bool b => simp_all
                          | num q => simp_all
                          | str s3 => simp_all
                          | arr l => simp_all
                          | obj rl =>
                            simp only [hrl] at h ⊢
                            by_cases hp : (objGet rl "primary_window" (JVal.obj [])).truthy
                            · cases hpw : objGet rl "primary_window" (JVal.obj []) <;>
                                simp_all [windowShapeOk, JVal.isDict] <;>
                                by_cases hs : (objGet rl "secondary_window" (JVal.obj [])).truthy <;>
                                cases hsw : objGet rl "secondary_window" (JVal.obj []) <;>
                                simp_all [JVal.isDict]
                            · simp_all [windowShapeOk]
                              by_cases hs : (objGet rl "secondary_window" (JVal.obj [])).truthy <;>
                              cases hsw : objGet rl "secondary_window" (JVal.obj []) <;>
                              simp_all [JVal.isDict]
                  · simp [hbody]
    · simp [hidx, hacct]
  · simp [hidx]

/-- Witness for C5's amended theorem at a concrete caught transport
error: the fetch returns a value, and the failure text is recorded as
the result's error string. -/
theorem codex_shape_ok_returns_witness :
    codexResponseOk loadsU (ApiOutcome.raised (PyExc.runtimeError "HTTP 401: x")) = true ∧
    ((fetch_codex_quota loadsU (sampleAuth (JVal.str "a1") (JVal.str "acct1"))
        (ApiOutcome.raised (PyExc.runtimeError "HTTP 401: x"))).1).isSome = true ∧
    fetch_codex_quota loadsU (sampleAuth (JVal.str "a1") (JVal.str "acct1"))
        (ApiOutcome.raised (PyExc.runtimeError "HTTP 401: x")) =
      (some { initCodexQuota (sampleAuth (JVal.str "a1") (JVal.str "acct1")) with
              error := "HTTP 401: x" }, true) :=
  ⟨rfl,
    (codex_shape_ok_returns loadsU (sampleAuth (JVal.str "a1") (JVal.str "acct1"))
      (ApiOutcome.raised (PyExc.runtimeError "HTTP 401: x"))).1 rfl,
    (codex_shape_ok_returns loadsU (sampleAuth (JVal.str "a1") (JVal.str "acct1"))
      (ApiOutcome.raised (PyExc.runtimeError "HTTP 401: x"))).2.1 (by decide) (by decide)
      (PyExc.runtimeError "HTTP 401: x") rfl rfl⟩

/-- C4 counterexample: an entry whose non-empty `quotaInfo` lacks both
remaining-fraction keys extracts Python `None` even though a top-level
`remainingFraction` is present — the code never falls back from a truthy
`quotaInfo` to the top-level fields, refuting the claim's "in particular"
clause. -/
theorem extract_ignores_top_level_cex :
    extractRemaining infoC4 = some JVal.null ∧
    dlookup infoC4 "remainingFraction" = some (JVal.num (mkRat 1 2)) ∧
    JVal.null ≠ JVal.num (mkRat 1 2) :=
  ⟨rfl, rfl, fun h => JVal.noConfusion h⟩

/-- C4 amended: extraction chooses a single source of fields — the nested
`quotaInfo` when truthy, else the top level — and within that source
checks the camelCase variant then the snake_case variant, first present
key winning; a truthy `quotaInfo` lacking both remaining-fraction keys
yields `None` even when a top-level value is present. -/
theorem extract_nested_then_flat (fields : List (String × JVal)) :
    (∀ qf v, objGet fields "quotaInfo" (JVal.obj []) = JVal.obj qf →
      (JVal.obj qf).truthy = true →
      dlookup qf "remainingFraction" = some v →
      extractRemaining fields = some v) ∧
    (∀ qf v, objGet fields "quotaInfo" (JVal.obj []) = JVal.obj qf →
      (JVal.obj qf).truthy = true →
      dlookup qf "remainingFraction" = none →
      dlookup qf "remaining_fraction" = some v →
      extractRemaining fields = some v) ∧
    (∀ qf, objGet fields "quotaInfo" (JVal.obj []) = JVal.obj qf →
      (JVal.obj qf).truthy = true →
      dlookup qf "remainingFraction" = none →
      dlookup qf "remaining_fraction" = none →
      extractRemaining fields = some JVal.null) ∧
    ((objGet fields "quotaInfo" (JVal.obj [])).truthy = false →
      ∀ v, dlookup fields "remainingFraction" = some v →
      extractRemaining fields = some v) ∧
    ((objGet fields "quotaInfo" (JVal.obj [])).truthy = false →
      dlookup fields "remainingFraction" = none →
      extractRemaining fields =
        some ((dlookup fields "remaining_fraction").getD JVal.null)) ∧
    (∀ qf v, objGet fields "quotaInfo" (JVal.obj []) = JVal.obj qf →
      (JVal.obj qf).truthy = true →
      dlookup qf "resetTime" = some v →
      extractReset fields = some v) ∧
    (∀ qf v, objGet fields "quotaInfo" (JVal.obj []) = JVal.obj qf →
      (JVal.obj qf).truthy = true →
      dlookup qf "resetTime" = none →
      dlookup qf "reset_time" = some v →
      extractReset fields = some v) ∧
    (∀ qf, objGet fields "quotaInfo" (JVal.obj []) = JVal.obj qf →
      (JVal.obj qf).truthy = true →
      dlookup qf "resetTime" = none →
      dlookup qf "reset_time" = none →
      extractReset fields = some (JVal.str "")) ∧
    ((objGet fields "quotaInfo" (JVal.obj [])).truthy = false →
      ∀ v, dlookup fields "resetTime" = some v →
      extractReset fields = some v) ∧
    ((objGet fields "quotaInfo" (JVal.obj [])).truthy = false →
      dlookup fields "resetTime" = none →
      extractReset fields =
        some ((dlookup fields "reset_time").getD (JVal.str ""))) := by
  refine ⟨?_, ?_, ?_, ?_, ?_, ?_, ?_, ?_, ?_, ?_⟩
  · intro qf v hqi ht hc
    simp only [extractRemaining, hqi, ht, if_true]
    simp [objGet, hc]
  · intro qf v hqi ht hc hsn
    simp only [extractRemaining, hqi, ht, if_true]
    simp [objGet, hc, hsn]
  · intro qf hqi ht hc hsn
    simp only [extractRemaining, hqi, ht, if_true]
    simp [objGet, hc, hsn]
  · intro ht v hc
    simp only [extractRemaining, ht]
    simp [objGet, hc]
  · intro ht hc
    simp only [extractRemaining, ht]
    simp [objGet, hc]
  · intro qf v hqi ht hc
    simp only [extractReset, hqi, ht, if_true]
    simp [objGet, hc]
  · intro qf v hqi ht hc hsn
    simp only [extractReset, hqi, ht, if_true]
    simp [objGet, hc, hsn]
  · intro qf hqi ht hc hsn
    simp only [extractReset, hqi, ht, if_true]
    simp [objGet, hc, hsn]
  · intro ht v hc
    simp only [extractReset, ht]
    simp [objGet, hc]
  · intro ht hc
    simp only [extractReset, ht]
    simp [objGet, hc]

/-- Witness for C4's amended theorem at the counterexample entry: the
remaining fraction extracts to `None` from the truthy `quotaInfo`
despite the top-level value, and the reset time extracts from the
nested camelCase key. -/
theorem extract_nested_then_flat_witness :
    extractRemaining infoC4 = some JVal.null ∧
    extractReset infoC4 = some (JVal.str "T") :=
  ⟨(extract_nested_then_flat infoC4).2.2.1 [("resetTime", JVal.str "T")]
      rfl rfl rfl rfl,
    (extract_nested_then_flat infoC4).2.2.2.2.2.1 [("resetTime", JVal.str "T")]
      (JVal.str "T") rfl rfl rfl⟩


/-- Helper: the endpoint list elementwise. -/
theorem antigravity_urls_eq : ANTIGRAVITY_QUOTA_URLS = [agUrl1, agUrl2, agUrl3] := rfl

/-- Helper: when every attempted endpoint fails, the loop returns the
last failure reason (or the fixed fallback for an empty reason) and
attempts every URL in order. -/
theorem agLoop_all_fail (loads : String → Except String JVal)
    (oracle : String → ApiOutcome) (quota : AntigravityQuota) :
    ∀ (urls rs : List String) (le : String),
      List.Forall₂ (fun u r => agAttempt loads (oracle u) = AgStep.fail r) urls rs →
      agLoop loads oracle quota urls le =
        (some { quota with
          error := if rs.getLastD le = "" then "all endpoints failed"
            else rs.getLastD le }, urls) := by
  intro urls rs le h
  induction h generalizing le with
  | nil => simp [agLoop]
  | cons hu hrest ih =>
      rename_i u r us rsl
      simp only [agLoop, hu, List.getLastD_cons]
      rw [ih r]

/-- Helper: failing attempts before a successful one thread through the
loop; the first success short-circuits with its aggregation. -/
theorem agLoop_first_success (loads : String → Except String JVal)
    (oracle : String → ApiOutcome) (quota : AntigravityQuota) :
    ∀ (pre : List String) (url : String) (rest : List String) (le : String)
      (models : List (String × JVal)) (gs : List AntigravityModelQuota),
      (∀ u ∈ pre, ∃ r, agAttempt loads (oracle u) = AgStep.fail r) →
      agAttempt loads (oracle url) = AgStep.success models →
      build_antigravity_groups models = some gs →
      agLoop loads oracle quota (pre ++ url :: rest) le =
        (some { quota with groups := gs }, pre ++ [url]) := by
  intro pre
  induction pre with
  | nil =>
      intro url rest le models gs _ hsucc hbuild
      simp [agLoop, hsucc, hbuild]
  | cons u pre2 ih =>
      intro url rest le models gs hfail hsucc hbuild
      obtain ⟨r, hr⟩ := hfail u (List.mem_cons_self u pre2)
      simp only [List.cons_append, agLoop, hr, List.append_eq]
      rw [ih url rest r models gs
        (fun v hv => hfail v (List.mem_cons_of_mem u hv)) hsucc hbuild]

/-- C3: with a non-empty routing index, when every endpoint attempt fails
(non-2xx, empty body, missing/non-mapping models, or a caught
transport/decode exception — all summarized by `AgStep.fail`), the fetch
returns an error result carrying the last endpoint's failure reason, and
attempted all three endpoints in order.  The hypothesis `r3 ≠ ""` holds
for every reason the program can produce: `"HTTP <code>"`,
`"empty response"`, `"no models in response"`, and the `api_call` /
`json.loads` exception messages (all prefixed or fixed non-empty text). -/
theorem antigravity_all_fail_last_error (loads : String → Except String JVal)
    (af : AuthFile) (oracle : String → ApiOutcome) (s : String)
    (hs : af.auth_index = JVal.str s) (hne : s ≠ "")
    (r1 r2 r3 : String)
    (h1 : agAttempt loads (oracle agUrl1) = AgStep.fail r1)
    (h2 : agAttempt loads (oracle agUrl2) = AgStep.fail r2)
    (h3 : agAttempt loads (oracle agUrl3) = AgStep.fail r3)
    (hr : r3 ≠ "") :
    fetch_antigravity_quota loads af oracle =
      (some { email := af.email, groups := [], error := r3 },
        ANTIGRAVITY_QUOTA_URLS) := by
  unfold fetch_antigravity_quota
  simp only [hs, JVal.truthy, hne, decide_not, decide_eq_true_eq, Bool.not_not]
  rw [if_neg (by simp [hne])]
  rw [antigravity_urls_eq]
  rw [agLoop_all_fail loads oracle _ [agUrl1, agUrl2, agUrl3] [r1, r2, r3] ""
    (by exact List.Forall₂.cons h1 (List.Forall₂.cons h2
      (List.Forall₂.cons h3 List.Forall₂.nil)))]
  simp [hr]

/-- Witness for C3 at a concrete record and an oracle failing every
endpoint with a caught transport error. -/
theorem antigravity_all_fail_witness :
    fetch_antigravity_quota loadsU sampleAgAuth oracleAllFail =
      (some { email := JVal.str "v@y.com", groups := [],
              error := "Connection error: boom" }, ANTIGRAVITY_QUOTA_URLS) :=
  antigravity_all_fail_last_error loadsU sampleAgAuth oracleAllFail "a2" rfl
    (by decide) "Connection error: boom" "Connection error: boom"
    "Connection error: boom" rfl rfl rfl (by decide)

/-- C2 counterexample: the first endpoint answers 2xx with a non-empty
body and non-empty `models` mapping (classified `AgStep.success`), yet
the fetch does not return a success result — it raises an uncaught
`TypeError` inside the aggregation (`float` of a dict), modelled as
result `none`.  This refutes the claim that such an endpoint's data is
always returned aggregated as a success result. -/
theorem antigravity_success_aggregation_crash_cex :
    agAttempt loadsU (oracleSuccessCrash agUrl1) =
      AgStep.success [("gemini-2.5-pro", JVal.obj [("remainingFraction", JVal.obj [])])] ∧
    fetch_antigravity_quota loadsU sampleAgAuth oracleSuccessCrash = (none, [agUrl1]) :=
  ⟨rfl, rfl⟩

/-- C2 amended: with a non-empty routing index, endpoints are attempted
strictly in configured order; the first endpoint classified successful
(2xx, truthy body, non-empty `models` mapping) short-circuits the loop,
no later endpoint is called, and — provided the aggregation of its models
completes without error — its aggregation is returned as the success
result. -/
theorem antigravity_first_success (loads : String → Except String JVal)
    (af : AuthFile) (oracle : String → ApiOutcome) (s : String)
    (hs : af.auth_index = JVal.str s) (hne : s ≠ "")
    (pre : List String) (url : String) (rest : List String)
    (hsplit : ANTIGRAVITY_QUOTA_URLS = pre ++ url :: rest)
    (models : List (String × JVal)) (gs : List AntigravityModelQuota)
    (hfail : ∀ u ∈ pre, ∃ r, agAttempt loads (oracle u) = AgStep.fail r)
    (hsucc : agAttempt loads (oracle url) = AgStep.success models)
    (hbuild : build_antigravity_groups models = some gs) :
    fetch_antigravity_quota loads af oracle =
      (some { email := af.email, groups := gs, error := "" }, pre ++ [url]) := by
  unfold fetch_antigravity_quota
  rw [if_neg (by simp [hs, JVal.truthy, hne])]
  rw [hsplit]
  exact agLoop_first_success loads oracle _ pre url rest "" models gs
    hfail hsucc hbuild

/-- Witness for C2 at the spec's own scenario: endpoints A and B fail,
endpoint C succeeds; the result is C's aggregation and exactly the three
calls A, B, C were made. -/
theorem antigravity_first_success_witness :
    fetch_antigravity_quota loadsU sampleAgAuth oracleThirdSuccess =
      (some { email := JVal.str "v@y.com",
              groups := [ { group_label := "Gemini 2.5 Pro",
                            remaining_fraction := some (mkRat 2 5),
                            reset_time := JVal.str "2026-01-01T00:00:00Z",
                            models := ["gemini-2.5-pro"] } ],
              error := "" },
        [agUrl1, agUrl2] ++ [agUrl3]) :=
  antigravity_first_success loadsU sampleAgAuth oracleThirdSuccess "a2" rfl
    (by decide) [agUrl1, agUrl2] agUrl3 [] rfl _ _
    (by
      intro u hu
      simp only [List.mem_cons, List.not_mem_nil, or_false] at hu
      rcases hu with h | h <;> subst h
      · exact ⟨"HTTP 503: " ++ agUrl1, rfl⟩
      · exact ⟨"HTTP 503: " ++ agUrl2, rfl⟩)
    rfl rfl

-- ── Dict lemmas ─────────────────────────────────────────────────────────────

theorem dlookup_dinsert {α : Type} (m : List (String × α)) (k : String) (v : α) :
    ∀ k2, dlookup (dinsert m k v) k2 = if k2 = k then some v else dlookup m k2 := by
  induction m with
  | nil =>
      intro k2
      simp [dinsert, dlookup]
  | cons p rest ih =>
      intro k2
      obtain ⟨pk, pv⟩ := p
      simp only [dinsert]
      by_cases hpk : pk = k
      · subst hpk
        simp only [if_pos rfl, dlookup]
        by_cases h2 : k2 = pk <;> simp [h2]
      · simp only [if_neg hpk, dlookup, ih]
        have hkp : k ≠ pk := fun hh => hpk hh.symm
        by_cases h2 : k2 = pk
        · simp [h2, hpk]
        · by_cases h3 : k2 = k <;> simp [h2, h3, hkp]

theorem dlookup_eq_none {α : Type} (m : List (String × α)) (k : String) :
    dlookup m k = none ↔ k ∉ m.map Prod.fst := by
  induction m with
  | nil => simp [dlookup]
  | cons p rest ih =>
      obtain ⟨pk, pv⟩ := p
      by_cases h : k = pk
      · subst h
        simp [dlookup]
      · simp [dlookup, h, ih]

theorem dlookup_append {α : Type} (xs ys : List (String × α)) (k : String) :
    dlookup (xs ++ ys) k =
      match dlookup xs k with
      | some v => some v
      | none => dlookup ys k := by
  induction xs with
  | nil => simp [dlookup]
  | cons p rest ih =>
      obtain ⟨pk, pv⟩ := p
      by_cases h : k = pk
      · simp [dlookup, h]
      · simp [dlookup, h, ih]

theorem dlookup_mem {α : Type} :
    ∀ (m : List (String × α)) (k : String) (v : α), dlookup m k = some v → (k, v) ∈ m := by
  intro m
  induction m with
  | nil => intro k v h; simp [dlookup] at h
  | cons p rest ih =>
      intro k v h
      obtain ⟨pk, pv⟩ := p
      simp only [dlookup] at h
      by_cases hk : k = pk
      · rw [if_pos hk] at h
        injection h with h2
        subst hk
        subst h2
        exact List.mem_cons_self _ _
      · rw [if_neg hk] at h
        exact List.mem_cons_of_mem _ (ih k v h)

theorem dinsert_keys {α : Type} (m : List (String × α)) (k : String) (v : α) :
    (dinsert m k v).map Prod.fst =
      if k ∈ m.map Prod.fst then m.map Prod.fst else m.map Prod.fst ++ [k] := by
  induction m with
  | nil => simp [dinsert]
  | cons p rest ih =>
      obtain ⟨pk, pv⟩ := p
      by_cases h : pk = k
      · subst h
        simp [dinsert]
      · simp only [dinsert, if_neg h, List.map_cons, List.mem_cons, ih]
        by_cases h2 : k ∈ rest.map Prod.fst
        · simp [h2, Ne.symm h]
        · simp only [h2, if_false]
          rw [if_neg ?_]
          · simp
          · rintro (h3 | h3)
            · exact h h3.symm
            · exact h3

theorem nodup_keys_dinsert {α : Type} (m : List (String × α)) (k : String) (v : α)
    (h : (m.map Prod.fst).Nodup) : ((dinsert m k v).map Prod.fst).Nodup := by
  rw [dinsert_keys]
  by_cases hk : k ∈ m.map Prod.fst
  · simp [hk, h]
  · simp only [hk, if_false]
    simp only [List.nodup_append, List.nodup_cons, List.nodup_nil]
    exact ⟨h, by simp, by simp [hk]⟩

/-- Two association lists with unique keys and the same lookup function
are permutations of each other. -/
theorem perm_of_lookup_eq {α : Type} :
    ∀ (l1 l2 : List (String × α)), (l1.map Prod.fst).Nodup → (l2.map Prod.fst).Nodup →
      (∀ k, dlookup l1 k = dlookup l2 k) → l1.Perm l2 := by
  intro l1
  induction l1 with
  | nil =>
      intro l2 _ _ hl
      cases l2 with
      | nil => exact List.Perm.refl _
      | cons p rest =>
          exfalso
          have := hl p.1
          simp [dlookup] at this
  | cons p rest ih =>
      intro l2 h1 h2 hl
      have hp : dlookup l2 p.1 = some p.2 := by
        have := (hl p.1).symm
        simpa [dlookup] using this
      have hpmem : p ∈ l2 := by
        have := dlookup_mem l2 p.1 p.2 hp
        simpa using this
      obtain ⟨l2a, l2b, rfl⟩ := List.append_of_mem hpmem
      have hkey : p.1 ∉ l2a.map Prod.fst ∧ p.1 ∉ l2b.map Prod.fst := by
        have hthis := h2
        simp only [List.map_append, List.map_cons, List.nodup_append,
          List.nodup_cons] at hthis
        constructor
        · intro hmem
          exact (hthis.2.2 hmem) (List.mem_cons_self _ _)
        · exact hthis.2.1.1
      have hstep : (p :: (l2a ++ l2b)).Perm (l2a ++ p :: l2b) :=
        List.perm_middle.symm
      refine List.Perm.trans ?_ hstep
      apply List.Perm.cons
      apply ih
      · exact (List.nodup_cons.mp (by simpa using h1)).2
      · have hgoal : ((l2a ++ l2b).map Prod.fst).Nodup := by
          have hthis := h2
          simp only [List.map_append, List.map_cons, List.nodup_append,
            List.nodup_cons, List.map_nil] at hthis ⊢
          exact ⟨hthis.1, hthis.2.1.2, fun a ha hb => (hthis.2.2 ha) (List.mem_cons_of_mem _ hb)⟩
        exact hgoal
      · intro k
        by_cases hk : k = p.1
        · subst hk
          have hnone1 : dlookup rest p.1 = none := by
            rw [dlookup_eq_none]
            have hh : (∀ (x : α), (p.1, x) ∉ rest) ∧ (rest.map Prod.fst).Nodup := by
              simpa using h1
            simpa using hh.1
          have hnone2 : dlookup (l2a ++ l2b) p.1 = none := by
            rw [dlookup_eq_none]
            simp only [List.map_append, List.mem_append]
            rintro (hmem | hmem)
            · exact hkey.1 hmem
            · exact hkey.2 hmem
          rw [hnone1, hnone2]
        · have hlk := hl k
          simp only [dlookup, if_neg hk] at hlk
          rw [hlk, dlookup_append, dlookup_append]
          simp only [dlookup, if_neg hk]

-- ── modelToGroup and configuration facts ────────────────────────────────────

theorem model_to_group_sound :
    ∀ (m : String) (g : GroupDef), modelToGroup m = some g →
      g ∈ ANTIGRAVITY_GROUPS ∧ m ∈ g.ids := by
  have inner : ∀ (ids2 : List String) (g0 : GroupDef)
      (init : List (String × GroupDef)),
      (∀ m g, dlookup init m = some g → g ∈ ANTIGRAVITY_GROUPS ∧ m ∈ g.ids) →
      g0 ∈ ANTIGRAVITY_GROUPS → (∀ mid ∈ ids2, mid ∈ g0.ids) →
      ∀ m g, dlookup (ids2.foldl (fun a mid => dinsert a mid g0) init) m = some g →
        g ∈ ANTIGRAVITY_GROUPS ∧ m ∈ g.ids := by
    intro ids2
    induction ids2 with
    | nil =>
        intro g0 init hinit _ _ m g hl
        exact hinit m g hl
    | cons mid rest ih =>
        intro g0 init hinit hg0 hids m g hl
        simp only [List.foldl_cons] at hl
        refine ih g0 (dinsert init mid g0) ?_ hg0
          (fun x hx => hids x (List.mem_cons_of_mem _ hx)) m g hl
        intro m2 g2 hl2
        rw [dlookup_dinsert] at hl2
        by_cases hm : m2 = mid
        · rw [if_pos hm] at hl2
          injection hl2 with he
          subst he
          refine ⟨hg0, ?_⟩
          rw [hm]
          exact hids mid (List.mem_cons_self _ _)
        · rw [if_neg hm] at hl2
          exact hinit m2 g2 hl2
  have outer : ∀ (L : List GroupDef) (init : List (String × GroupDef)),
      (∀ m g, dlookup init m = some g → g ∈ ANTIGRAVITY_GROUPS ∧ m ∈ g.ids) →
      (∀ g ∈ L, g ∈ ANTIGRAVITY_GROUPS) →
      ∀ m g, dlookup (L.foldl
          (fun acc gr => gr.ids.foldl (fun a mid => dinsert a mid gr) acc) init) m =
        some g → g ∈ ANTIGRAVITY_GROUPS ∧ m ∈ g.ids := by
    intro L
    induction L with
    | nil =>
        intro init hinit _ m g hl
        exact hinit m g hl
    | cons gr rest ih =>
        intro init hinit hmem m g hl
        simp only [List.foldl_cons] at hl
        exact ih _ (inner gr.ids gr init hinit (hmem gr (List.mem_cons_self _ _))
          (fun _ hx => hx)) (fun g2 hg2 => hmem g2 (List.mem_cons_of_mem _ hg2)) m g hl
  intro m g h
  unfold modelToGroup model_to_group at h
  exact outer ANTIGRAVITY_GROUPS []
    (by intro m2 g2 h2; simp [dlookup] at h2) (fun _ hx => hx) m g h

/-- Distinct configured groups have distinct ids. -/
theorem groups_id_inj :
    ∀ g1 ∈ ANTIGRAVITY_GROUPS, ∀ g2 ∈ ANTIGRAVITY_GROUPS, g1.id = g2.id → g1 = g2 := by
  decide

/-- Distinct configured groups have distinct labels. -/
theorem groups_label_inj :
    ∀ g1 ∈ ANTIGRAVITY_GROUPS, ∀ g2 ∈ ANTIGRAVITY_GROUPS, g1.label = g2.label → g1 = g2 := by
  decide

-- ── minState / qListMin lemmas ──────────────────────────────────────────────

theorem minStep_fst (st : Option ℚ × JVal) (e : Option ℚ × JVal) :
    (minStep st e).1 =
      match e.1 with
      | none => st.1
      | some q =>
          match st.1 with
          | none => some q
          | some m => some (min m q) := by
  unfold minStep
  cases e.1 with
  | none => rfl
  | some q =>
      cases hst : st.1 with
      | none => simp [hst]
      | some m =>
          simp only [hst]
          by_cases h : q < m
          · rw [if_pos h]
            simp [min_eq_right h.le]
          · rw [if_neg h]
            simp [hst, min_eq_left (le_of_not_lt h)]

theorem foldl_minStep_fst (l : List (Option ℚ × JVal)) :
    ∀ st : Option ℚ × JVal,
      (l.foldl minStep st).1 =
        (l.filterMap Prod.fst).foldl (fun a q =>
          match a with
          | none => some q
          | some m => some (min m q)) st.1 := by
  induction l with
  | nil => intro st; rfl
  | cons e rest ih =>
      intro st
      simp only [List.foldl_cons, List.filterMap_cons]
      cases he : e.1 with
      | none =>
          rw [ih]
          have : (minStep st e).1 = st.1 := by rw [minStep_fst, he]
          rw [this]
      | some q =>
          simp only [List.foldl_cons]
          rw [ih]
          have : (minStep st e).1 =
              match st.1 with
              | none => some q
              | some m => some (min m q) := by rw [minStep_fst, he]
          rw [this]

theorem minState_fst (l : List (Option ℚ × JVal)) :
    (minState l).1 = qListMin (l.filterMap Prod.fst) := by
  unfold minState qListMin
  exact foldl_minStep_fst l (none, JVal.str "")

theorem qListMin_fold_spec (l : List ℚ) :
    ∀ (init : Option ℚ) (q : ℚ),
      l.foldl (fun a x =>
        match a with
        | none => some x
        | some m => some (min m x)) init = some q →
      (q ∈ l ∧ (∀ x ∈ l, q ≤ x) ∧ (∀ m, init = some m → q ≤ m)) ∨
        (init = some q ∧ ∀ x ∈ l, q ≤ x) := by
  induction l with
  | nil =>
      intro init q h
      right
      exact ⟨h, by simp⟩
  | cons x rest ih =>
      intro init q h
      simp only [List.foldl_cons] at h
      have hstep : (match init with
          | none => some x
          | some m => some (min m x) : Option ℚ) =
          match init with
          | none => some x
          | some m => some (min m x) := rfl
      rcases ih _ q h with ⟨hmem, hbound, hinit⟩ | ⟨heq, hbound⟩
      · left
        refine ⟨List.mem_cons_of_mem _ hmem, ?_, ?_⟩
        · intro y hy
          rcases List.mem_cons.mp hy with hyx | hyr
          · subst hyx
            cases init with
            | none => exact hinit y rfl
            | some m => exact (hinit (min m y) rfl).trans (min_le_right m y)
          · exact hbound y hyr
        · intro m hm
          subst hm
          exact (hinit (min m x) rfl).trans (min_le_left m x)
      · cases init with
        | none =>
            injection heq with he
            subst he
            left
            exact ⟨List.mem_cons_self _ _, fun y hy => by
              rcases List.mem_cons.mp hy with hyx | hyr
              · exact le_of_eq hyx.symm
              · exact hbound y hyr, by simp⟩
        | some m =>
            injection heq with he
            rcases le_total m x with hmx | hxm
            · right
              rw [min_eq_left hmx] at he
              subst he
              refine ⟨rfl, fun y hy => ?_⟩
              rcases List.mem_cons.mp hy with hyx | hyr
              · exact hyx ▸ hmx
              · exact hbound y hyr
            · left
              rw [min_eq_right hxm] at he
              subst he
              refine ⟨List.mem_cons_self _ _, fun y hy => ?_, fun m2 hm2 => ?_⟩
              · rcases List.mem_cons.mp hy with hyx | hyr
                · exact le_of_eq hyx.symm
                · exact hbound y hyr
              · injection hm2 with hm3
                subst hm3
                exact hxm

theorem qListMin_spec (l : List ℚ) (q : ℚ) (h : qListMin l = some q) :
    q ∈ l ∧ ∀ x ∈ l, q ≤ x := by
  rcases qListMin_fold_spec l none q h with ⟨hmem, hbound, _⟩ | ⟨heq, _⟩
  · exact ⟨hmem, hbound⟩
  · simp at heq

theorem qListMin_perm (l1 l2 : List ℚ) (h : l1.Perm l2) :
    qListMin l1 = qListMin l2 := by
  unfold qListMin
  haveI : RightCommutative (fun (a : Option ℚ) (q : ℚ) =>
      match a with
      | none => some q
      | some m => some (min m q)) := by
    constructor
    intro b a1 a2
    cases b with
    | none => simp [min_comm]
    | some m => simp [min_assoc, min_comm a1 a2]
  exact h.foldl_eq none

theorem foldl_minStep_stable (l : List (Option ℚ × JVal)) :
    ∀ (q : ℚ) (t : JVal), (∀ x ∈ l.filterMap Prod.fst, ¬ x < q) →
      l.foldl minStep (some q, t) = (some q, t) := by
  induction l with
  | nil => intro q t _; rfl
  | cons e rest ih =>
      intro q t hb
      simp only [List.foldl_cons]
      have hstep : minStep (some q, t) e = (some q, t) := by
        unfold minStep
        cases he : e.1 with
        | none => rfl
        | some x =>
            have hnx : ¬ x < q := by
              refine hb x ?_
              rw [List.mem_filterMap]
              exact ⟨e, List.mem_cons_self _ _, he⟩
            simp [hnx]
      rw [hstep]
      refine ih q t (fun x hx => hb x ?_)
      rw [List.mem_filterMap] at hx ⊢
      obtain ⟨a, ha, hfa⟩ := hx
      exact ⟨a, List.mem_cons_of_mem _ ha, hfa⟩

/-- If the earliest entry attaining the minimum fraction carries a truthy
reset time, the accumulated state is exactly that entry's data. -/
theorem minState_first_min (l1 l2 : List (Option ℚ × JVal)) (q : ℚ) (t : JVal)
    (h1 : ∀ x ∈ l1.filterMap Prod.fst, q < x)
    (h2 : ∀ x ∈ l2.filterMap Prod.fst, q ≤ x)
    (ht : t.truthy = true) :
    minState (l1 ++ (some q, t) :: l2) = (some q, t) := by
  have key : ∀ (st : Option ℚ × JVal),
      (st.1 = none ∨ ∃ m, st.1 = some m ∧ q < m) →
      minStep st (some q, t) = (some q, t) := by
    intro st hcase
    obtain ⟨f1, t1⟩ := st
    simp only at hcase
    unfold minStep
    rcases hcase with hf | ⟨m, hf, hqm⟩
    · subst hf
      simp [pyOr, ht]
    · subst hf
      simp [hqm, pyOr, ht]
  unfold minState
  rw [List.foldl_append, List.foldl_cons]
  have hmid : minStep (l1.foldl minStep (none, JVal.str "")) (some q, t) = (some q, t) := by
    apply key
    cases hq : (l1.foldl minStep (none, JVal.str "")).1 with
    | none => exact Or.inl rfl
    | some m =>
        right
        refine ⟨m, rfl, ?_⟩
        have hmin : qListMin (l1.filterMap Prod.fst) = some m := by
          rw [← minState_fst]
          exact hq
        exact h1 m (qListMin_spec _ m hmin).1
  rw [hmid]
  exact foldl_minStep_stable l2 q t (fun x hx => not_lt.mpr (h2 x hx))

-- ── Append lemmas for the per-group projections ─────────────────────────────

theorem groupMembers_append_nonmember (gdef : GroupDef) (pre : List (String × JVal))
    (p : String × JVal) (h : isGroupMemberEntry gdef.id p = false) :
    groupMembers gdef (pre ++ [p]) = groupMembers gdef pre := by
  unfold groupMembers
  rw [List.filter_append]
  simp [List.filter_cons, h]

theorem groupEntries_append_nonmember (gdef : GroupDef) (pre : List (String × JVal))
    (p : String × JVal) (h : isGroupMemberEntry gdef.id p = false) :
    groupEntries gdef (pre ++ [p]) = groupEntries gdef pre := by
  unfold groupEntries
  rw [List.filter_append]
  simp [List.filter_cons, h]

theorem groupMembers_append_member (gdef : GroupDef) (pre : List (String × JVal))
    (p : String × JVal) (h : isGroupMemberEntry gdef.id p = true) :
    groupMembers gdef (pre ++ [p]) = groupMembers gdef pre ++ [p.1] := by
  unfold groupMembers
  rw [List.filter_append]
  simp [List.filter_cons, h]

theorem groupEntries_append_member (gdef : GroupDef) (pre : List (String × JVal))
    (p : String × JVal) (d : Option ℚ × JVal)
    (h : isGroupMemberEntry gdef.id p = true) (hd : entryData p.2 = some d) :
    groupEntries gdef (pre ++ [p]) = groupEntries gdef pre ++ [d] := by
  unfold groupEntries
  rw [List.filter_append]
  rw [List.filterMap_append]
  simp [List.filter_cons, h, List.filterMap_cons, hd]

theorem groupEntries_nil (gdef : GroupDef) (pre : List (String × JVal))
    (h : groupMembers gdef pre = []) : groupEntries gdef pre = [] := by
  unfold groupMembers at h
  rw [List.map_eq_nil] at h
  unfold groupEntries
  rw [h]
  rfl

theorem mkGroupRef_append_nonmember (gdef : GroupDef) (pre : List (String × JVal))
    (p : String × JVal) (h : isGroupMemberEntry gdef.id p = false) :
    mkGroupRef gdef (pre ++ [p]) = mkGroupRef gdef pre := by
  unfold mkGroupRef
  rw [groupEntries_append_nonmember gdef pre p h,
    groupMembers_append_nonmember gdef pre p h]

theorem BuildInv_unchanged (gd : List (String × AntigravityModelQuota))
    (pre : List (String × JVal)) (p : String × JVal)
    (h : ∀ gdef : GroupDef, isGroupMemberEntry gdef.id p = false)
    (hinv : BuildInv gd pre) : BuildInv gd (pre ++ [p]) := by
  obtain ⟨hnd, hkeys, hlk⟩ := hinv
  refine ⟨hnd, hkeys, ?_⟩
  intro gdef hg
  rw [groupMembers_append_nonmember gdef pre p (h gdef),
    mkGroupRef_append_nonmember gdef pre p (h gdef)]
  exact hlk gdef hg

theorem BuildInv_nil : BuildInv [] [] := by
  refine ⟨by simp, by simp, ?_⟩
  intro gdef _
  simp [dlookup, groupMembers]

theorem minState_append (l : List (Option ℚ × JVal)) (e : Option ℚ × JVal) :
    minState (l ++ [e]) = minStep (minState l) e := by
  unfold minState
  rw [List.foldl_append]
  rfl

theorem BuildInv_insert (gd : List (String × AntigravityModelQuota))
    (pre : List (String × JVal)) (p : String × JVal) (gdefp : GroupDef)
    (d : Option ℚ × JVal) (gNew : AntigravityModelQuota)
    (hinv : BuildInv gd pre)
    (hgmem : gdefp ∈ ANTIGRAVITY_GROUPS)
    (htrue : isGroupMemberEntry gdefp.id p = true)
    (hfother : ∀ gdef : GroupDef, gdef.id ≠ gdefp.id →
      isGroupMemberEntry gdef.id p = false)
    (hd : entryData p.2 = some d)
    (hgNew : gNew = { group_label := gdefp.label,
                      remaining_fraction := (minStep (minState (groupEntries gdefp pre)) d).1,
                      reset_time := (minStep (minState (groupEntries gdefp pre)) d).2,
                      models := groupMembers gdefp pre ++ [p.1] }) :
    BuildInv (dinsert gd gdefp.id gNew) (pre ++ [p]) := by
  obtain ⟨hnd, hkeys, hlk⟩ := hinv
  refine ⟨nodup_keys_dinsert _ _ _ hnd, ?_, ?_⟩
  · intro k hk
    rw [dinsert_keys] at hk
    by_cases hmem : gdefp.id ∈ gd.map Prod.fst
    · rw [if_pos hmem] at hk
      exact hkeys k hk
    · rw [if_neg hmem] at hk
      rcases List.mem_append.mp hk with hk2 | hk2
      · exact hkeys k hk2
      · simp only [List.mem_singleton] at hk2
        exact ⟨gdefp, hgmem, hk2⟩
  · intro gdef hg
    rw [dlookup_dinsert]
    by_cases hid : gdef.id = gdefp.id
    · rw [if_pos hid]
      have hgdef : gdef = gdefp := groups_id_inj gdef hg gdefp hgmem hid
      subst hgdef
      rw [groupMembers_append_member gdef pre p htrue]
      rw [if_neg (by simp)]
      congr 1
      rw [hgNew]
      unfold mkGroupRef
      rw [groupEntries_append_member gdef pre p d htrue hd, minState_append,
        groupMembers_append_member gdef pre p htrue]
    · rw [if_neg hid]
      rw [groupMembers_append_nonmember gdef pre p (hfother gdef hid),
        mkGroupRef_append_nonmember gdef pre p (hfother gdef hid)]
      exact hlk gdef hg

theorem buildStep_inv (gd : List (String × AntigravityModelQuota))
    (pre : List (String × JVal)) (p : String × JVal)
    (gd2 : List (String × AntigravityModelQuota))
    (hinv : BuildInv gd pre) (hstep : buildStep gd p = some gd2) :
    BuildInv gd2 (pre ++ [p]) := by
  by_cases hobj : ∃ fields, p.2 = JVal.obj fields
  case neg =>
    have hgd : gd2 = gd := by
      have h2 : buildStep gd p = some gd := by
        unfold buildStep
        cases hp2 : p.2
        case obj fields => exact absurd ⟨fields, hp2⟩ hobj
        all_goals rfl
      rw [hstep] at h2
      exact (Option.some.injEq _ _).mp h2
    subst hgd
    refine BuildInv_unchanged _ pre p ?_ hinv
    intro gdef
    unfold isGroupMemberEntry
    cases hp2 : p.2
    case obj fields => exact absurd ⟨fields, hp2⟩ hobj
    all_goals rfl
  case pos =>
    obtain ⟨fields, hp2⟩ := hobj
    simp only [buildStep, hp2] at hstep
    cases hrem : extractRemaining fields with
    | none =>
        simp only [hrem] at hstep
        exact Option.noConfusion hstep
    | some remaining =>
    cases hres : extractReset fields with
    | none =>
        simp only [hrem, hres] at hstep
        exact Option.noConfusion hstep
    | some reset =>
    simp only [hrem, hres] at hstep
    cases hmg : modelToGroup p.1 with
    | none =>
        simp only [hmg] at hstep
        injection hstep with h3
        subst h3
        refine BuildInv_unchanged gd pre p ?_ hinv
        intro gdef
        simp [isGroupMemberEntry, hp2, hmg]
    | some gdefp =>
        obtain ⟨hgmem, _hpid⟩ := model_to_group_sound p.1 gdefp hmg
        simp only [hmg] at hstep
        have htrue : isGroupMemberEntry gdefp.id p = true := by
          simp [isGroupMemberEntry, hp2, hmg]
        have hfother : ∀ gdef : GroupDef, gdef.id ≠ gdefp.id →
            isGroupMemberEntry gdef.id p = false := by
          intro gdef hne
          simp only [isGroupMemberEntry, hp2, hmg]
          simp only [decide_eq_false_iff_not]
          exact fun hh => hne hh.symm
        have hdata : entryData p.2 =
            (if remaining.isNull then some (none, reset)
              else (pyFloat remaining).map (fun q => (some q, reset))) := by
          simp [entryData, hp2, hrem, hres]
        cases hold : dlookup gd gdefp.id with
        | none =>
            have hmemnil : groupMembers gdefp pre = [] := by
              have hl2 := hinv.2.2 gdefp hgmem
              rw [hold] at hl2
              by_cases hm : groupMembers gdefp pre = []
              · exact hm
              · rw [if_neg hm] at hl2
                cases hl2
            have hstate : minState (groupEntries gdefp pre) = (none, JVal.str "") := by
              rw [groupEntries_nil gdefp pre hmemnil]
              rfl
            rw [hold] at hstep
            simp only [Option.getD_none] at hstep
            cases hnull : remaining.isNull with
            | true =>
                rw [hnull] at hstep
                simp only [if_true] at hstep
                injection hstep with h3
                subst h3
                refine BuildInv_insert gd pre p gdefp (none, reset) _ hinv hgmem htrue
                  hfother (by rw [hdata, hnull]; simp) ?_
                rw [hstate, hmemnil]
                rfl
            | false =>
                rw [hnull] at hstep
                simp only [if_false, Bool.false_eq_true] at hstep
                cases hpf : pyFloat remaining with
                | none => rw [hpf] at hstep; simp at hstep
                | some frac =>
                    rw [hpf] at hstep
                    simp only [] at hstep
                    injection hstep with h3
                    subst h3
                    refine BuildInv_insert gd pre p gdefp (some frac, reset) _ hinv hgmem
                      htrue hfother (by rw [hdata, hnull]; simp [hpf]) ?_
                    rw [hstate, hmemnil]
                    simp only [minStep]
        | some gg =>
            have hl2 := hinv.2.2 gdefp hgmem
            rw [hold] at hl2
            have hmemne : groupMembers gdefp pre ≠ [] := by
              by_cases hm : groupMembers gdefp pre = []
              · rw [if_pos hm] at hl2
                cases hl2
              · exact hm
            rw [if_neg hmemne] at hl2
            injection hl2 with hgg
            have hstate : minState (groupEntries gdefp pre) =
                (gg.remaining_fraction, gg.reset_time) := by
              rw [hgg]
              rfl
            have hggl : gg.group_label = gdefp.label := by rw [hgg]; rfl
            have hggm : gg.models = groupMembers gdefp pre := by rw [hgg]; rfl
            rw [hold] at hstep
            simp only [Option.getD_some] at hstep
            cases hnull : remaining.isNull with
            | true =>
                rw [hnull] at hstep
                simp only [if_true] at hstep
                injection hstep with h3
                subst h3
                refine BuildInv_insert gd pre p gdefp (none, reset) _ hinv hgmem htrue
                  hfother (by rw [hdata, hnull]; simp) ?_
                have hms : minStep (minState (groupEntries gdefp pre)) (none, reset) =
                    (gg.remaining_fraction, gg.reset_time) := by
                  rw [hstate]
                  rfl
                rw [hms, hggm, hggl]
            | false =>
                rw [hnull] at hstep
                simp only [if_false, Bool.false_eq_true] at hstep
                cases hpf : pyFloat remaining with
                | none => rw [hpf] at hstep; simp at hstep
                | some frac =>
                    rw [hpf] at hstep
                    cases hgr : gg.remaining_fraction with
                    | none =>
                        rw [hgr] at hstep
                        simp only [] at hstep
                        injection hstep with h3
                        subst h3
                        refine BuildInv_insert gd pre p gdefp (some frac, reset) _ hinv
                          hgmem htrue hfother (by rw [hdata, hnull]; simp [hpf]) ?_
                        have hms : minStep (minState (groupEntries gdefp pre))
                            (some frac, reset) = (some frac, pyOr reset gg.reset_time) := by
                          rw [hstate]
                          simp [minStep, hgr]
                        rw [hms, hggm, hggl]
                    | some r =>
                        rw [hgr] at hstep
                        simp only [] at hstep
                        by_cases hlt : frac < r
                        · rw [if_pos hlt] at hstep
                          injection hstep with h3
                          subst h3
                          refine BuildInv_insert gd pre p gdefp (some frac, reset) _ hinv
                            hgmem htrue hfother (by rw [hdata, hnull]; simp [hpf]) ?_
                          have hms : minStep (minState (groupEntries gdefp pre))
                              (some frac, reset) = (some frac, pyOr reset gg.reset_time) := by
                            rw [hstate]
                            simp [minStep, hgr, hlt]
                          rw [hms, hggm, hggl]
                        · rw [if_neg hlt] at hstep
                          injection hstep with h3
                          subst h3
                          refine BuildInv_insert gd pre p gdefp (some frac, reset) _ hinv
                            hgmem htrue hfother (by rw [hdata, hnull]; simp [hpf]) ?_
                          have hms : minStep (minState (groupEntries gdefp pre))
                              (some frac, reset) = (gg.remaining_fraction, gg.reset_time) := by
                            rw [hstate]
                            simp [minStep, hgr, hlt]
                          rw [hms, hggm, hggl]
                          simp [hgr]

theorem runBuild_inv : ∀ (rest : List (String × JVal))
    (gd : List (String × AntigravityModelQuota)) (pre : List (String × JVal))
    (gd2 : List (String × AntigravityModelQuota)),
    BuildInv gd pre → runBuild rest gd = some gd2 → BuildInv gd2 (pre ++ rest) := by
  intro rest
  induction rest with
  | nil =>
      intro gd pre gd2 hinv h
      simp only [runBuild, Option.some.injEq] at h
      subst h
      simpa using hinv
  | cons p rs ih =>
      intro gd pre gd2 hinv h
      simp only [runBuild] at h
      cases hs : buildStep gd p with
      | none =>
          rw [hs] at h
          exact Option.noConfusion h
      | some gdmid =>
          rw [hs] at h
          have hres := ih gdmid (pre ++ [p]) gd2 (buildStep_inv gd pre p gdmid hinv hs) h
          simpa [List.append_assoc] using hres

theorem runBuild_full_inv (models : List (String × JVal))
    (gd : List (String × AntigravityModelQuota))
    (h : runBuild models [] = some gd) : BuildInv gd models := by
  have hres := runBuild_inv models [] [] gd BuildInv_nil h
  simpa using hres

-- ── The association list of non-empty groups ────────────────────────────────

theorem dlookup_assoc_map (p : GroupDef → Bool) (f : GroupDef → AntigravityModelQuota) :
    ∀ (L : List GroupDef), (L.map (fun g => g.id)).Nodup →
      ∀ gdef ∈ L, dlookup ((L.filter p).map (fun g => (g.id, f g))) gdef.id =
        if p gdef then some (f gdef) else none := by
  intro L
  induction L with
  | nil => simp
  | cons g0 rest ih =>
      intro hnd gdef hg
      have hpair : (∀ x ∈ rest, ¬x.id = g0.id) ∧ (rest.map (fun g => g.id)).Nodup := by
        simpa using hnd
      have hhead : g0.id ∉ rest.map (fun g => g.id) := by
        intro hmem
        obtain ⟨x, hx, he⟩ := List.mem_map.mp hmem
        exact hpair.1 x hx he
      have hnd2 : (rest.map (fun g => g.id)).Nodup := hpair.2
      rcases List.mem_cons.mp hg with rfl | hmem
      · by_cases hp : p gdef
        · simp [List.filter_cons, hp, dlookup]
        · simp only [List.filter_cons, hp, if_false, Bool.false_eq_true]
          rw [dlookup_eq_none]
          intro hk
          refine hhead ?_
          rw [List.map_map] at hk
          have hsub : ((rest.filter p).map ((fun q => q.1) ∘ fun g => (g.id, f g))).Sublist
              (rest.map (fun g => g.id)) := by
            exact (List.filter_sublist rest).map _
          exact hsub.mem hk
      · have hne : gdef.id ≠ g0.id := by
          intro he
          exact hhead (he ▸ List.mem_map_of_mem (fun g => g.id) hmem)
        by_cases hp : p g0
        · simp only [List.filter_cons, hp, if_true, List.map_cons, dlookup]
          rw [if_neg hne]
          exact ih hnd2 gdef hmem
        · simp only [List.filter_cons, hp, if_false, Bool.false_eq_true]
          exact ih hnd2 gdef hmem

theorem groups_ids_nodup : (ANTIGRAVITY_GROUPS.map (fun g => g.id)).Nodup := by decide

theorem rhsAssoc_lookup (models : List (String × JVal)) :
    ∀ gdef ∈ ANTIGRAVITY_GROUPS,
      dlookup (rhsAssoc models) gdef.id =
        if groupMembers gdef models = [] then none
        else some (mkGroupRef gdef models) := by
  intro gdef hg
  unfold rhsAssoc
  rw [dlookup_assoc_map _ _ ANTIGRAVITY_GROUPS groups_ids_nodup gdef hg]
  by_cases hm : groupMembers gdef models = []
  · simp [hm]
  · simp [hm, List.isEmpty_iff]

theorem rhsAssoc_keys (models : List (String × JVal)) :
    ∀ k ∈ (rhsAssoc models).map Prod.fst, ∃ gdef ∈ ANTIGRAVITY_GROUPS, k = gdef.id := by
  intro k hk
  unfold rhsAssoc at hk
  rw [List.map_map] at hk
  obtain ⟨gdef, hmem, he⟩ := List.mem_map.mp hk
  exact ⟨gdef, (List.mem_filter.mp hmem).1, he.symm⟩

theorem rhsAssoc_keys_nodup (models : List (String × JVal)) :
    ((rhsAssoc models).map Prod.fst).Nodup := by
  unfold rhsAssoc
  rw [List.map_map]
  have hsub : ((ANTIGRAVITY_GROUPS.filter (fun gdef => !(groupMembers gdef models).isEmpty)).map
      (Prod.fst ∘ fun g => (g.id, mkGroupRef g models))).Sublist
      (ANTIGRAVITY_GROUPS.map (fun g => g.id)) :=
    (List.filter_sublist ANTIGRAVITY_GROUPS).map _
  exact groups_ids_nodup.sublist hsub

theorem gd_perm_rhsAssoc (models : List (String × JVal))
    (gd : List (String × AntigravityModelQuota))
    (hinv : BuildInv gd models) : gd.Perm (rhsAssoc models) := by
  obtain ⟨hnd, hkeys, hlk⟩ := hinv
  apply perm_of_lookup_eq gd (rhsAssoc models) hnd (rhsAssoc_keys_nodup models)
  intro k
  by_cases hk : ∃ gdef ∈ ANTIGRAVITY_GROUPS, k = gdef.id
  · obtain ⟨gdef, hg, rfl⟩ := hk
    rw [hlk gdef hg, rhsAssoc_lookup models gdef hg]
  · have h1 : dlookup gd k = none := by
      rw [dlookup_eq_none]
      intro hmem
      obtain ⟨gdef, hg, he⟩ := hkeys k hmem
      exact hk ⟨gdef, hg, he⟩
    have h2 : dlookup (rhsAssoc models) k = none := by
      rw [dlookup_eq_none]
      intro hmem
      obtain ⟨gdef, hg, he⟩ := rhsAssoc_keys models k hmem
      exact hk ⟨gdef, hg, he⟩
    rw [h1, h2]

/-- Characterization of a successful aggregation: the output is the
label-sorted list of per-group reference values over the groups with at
least one contributing member. -/
theorem build_characterization (models : List (String × JVal))
    (gs : List AntigravityModelQuota)
    (h : build_antigravity_groups models = some gs) :
    gs.Perm ((rhsAssoc models).map Prod.snd) ∧ gs.Sorted labelLe := by
  unfold build_antigravity_groups at h
  cases hrun : runBuild models [] with
  | none => rw [hrun] at h; exact Option.noConfusion h
  | some gd =>
      rw [hrun] at h
      have h2 : List.insertionSort labelLe (gd.map Prod.snd) = gs :=
        (Option.some.injEq _ _).mp h
      subst h2
      constructor
      · refine List.Perm.trans (List.perm_insertionSort labelLe _) ?_
        exact (gd_perm_rhsAssoc models gd (runBuild_full_inv models gd hrun)).map Prod.snd
      · exact List.sorted_insertionSort labelLe _

theorem isGroupMemberEntry_elim (gid : String) (p : String × JVal)
    (h : isGroupMemberEntry gid p = true) :
    p.2.isDict = true ∧ ∃ g2, modelToGroup p.1 = some g2 ∧ g2.id = gid := by
  unfold isGroupMemberEntry at h
  cases hv : p.2 <;> rw [hv] at h <;> simp at h
  case obj fields =>
    cases hm : modelToGroup p.1 <;> rw [hm] at h <;> simp at h
    case some g2 => exact ⟨by simp [hv, JVal.isDict], g2, rfl, h⟩

theorem groupMembers_mem (gdef : GroupDef) (models : List (String × JVal)) (m : String) :
    m ∈ groupMembers gdef models ↔
      ∃ info, (m, info) ∈ models ∧ isGroupMemberEntry gdef.id (m, info) = true := by
  unfold groupMembers
  constructor
  · intro hm
    obtain ⟨p, hp, he⟩ := List.mem_map.mp hm
    obtain ⟨hpm, hpf⟩ := List.mem_filter.mp hp
    obtain ⟨m1, info⟩ := p
    cases he
    exact ⟨info, hpm, hpf⟩
  · rintro ⟨info, hmem, hf⟩
    exact List.mem_map_of_mem Prod.fst (List.mem_filter.mpr ⟨hmem, hf⟩)

/-- C10: every group returned by the aggregator has a non-empty member
list, carries the label of a configured group, and all its members are
keys of the input mapping with dict values that belong to that group's
configured model-id set. -/
theorem build_groups_wellformed (models : List (String × JVal))
    (gs : List AntigravityModelQuota)
    (h : build_antigravity_groups models = some gs) :
    ∀ g ∈ gs, g.models ≠ [] ∧
      (ANTIGRAVITY_GROUPS.map (fun gdef => gdef.label)).contains g.group_label = true ∧
      ∀ gdef ∈ ANTIGRAVITY_GROUPS, g.group_label = gdef.label →
        ∀ m ∈ g.models, m ∈ gdef.ids ∧
          models.any (fun p2 => decide (p2.1 = m) && p2.2.isDict) = true := by
  intro g hg
  obtain ⟨hperm, _⟩ := build_characterization models gs h
  have hgmem : g ∈ (rhsAssoc models).map Prod.snd := hperm.mem_iff.mp hg
  unfold rhsAssoc at hgmem
  rw [List.map_map] at hgmem
  obtain ⟨gdef0, hmem0, he0⟩ := List.mem_map.mp hgmem
  obtain ⟨hg0, hne0⟩ := List.mem_filter.mp hmem0
  have hglab : g.group_label = gdef0.label := by rw [← he0]; rfl
  have hgmodels : g.models = groupMembers gdef0 models := by rw [← he0]; rfl
  refine ⟨?_, ?_, ?_⟩
  · rw [hgmodels]
    intro hnil
    rw [hnil] at hne0
    simp at hne0
  · rw [hglab]
    have hlabmem : gdef0.label ∈ ANTIGRAVITY_GROUPS.map (fun gdef => gdef.label) :=
      List.mem_map_of_mem _ hg0
    simpa [List.elem_iff] using hlabmem
  · intro gdef hgd hlab m hm
    have hgeq : gdef0 = gdef :=
      groups_label_inj gdef0 hg0 gdef hgd (hglab ▸ hlab)
    subst hgeq
    rw [hgmodels] at hm
    obtain ⟨info, hmem, hf⟩ := (groupMembers_mem gdef0 models m).mp hm
    obtain ⟨hdict, g2, hm2, hid2⟩ := isGroupMemberEntry_elim gdef0.id (m, info) hf
    obtain ⟨hg2mem, hg2ids⟩ := model_to_group_sound m g2 hm2
    have hg2eq : g2 = gdef0 := groups_id_inj g2 hg2mem gdef0 hg0 hid2
    subst hg2eq
    refine ⟨hg2ids, ?_⟩
    rw [List.any_eq_true]
    exact ⟨(m, info), hmem, by simp [hdict]⟩

/-- Witness for C10 at a concrete aggregation. -/
theorem build_groups_wellformed_witness :
    cexC1out.models ≠ [] ∧
    (ANTIGRAVITY_GROUPS.map (fun gdef => gdef.label)).contains cexC1out.group_label = true ∧
    ("claude-sonnet-4-5" ∈ claudeGroup.ids ∧
      cexC1.any (fun p2 => decide (p2.1 = "claude-sonnet-4-5") && p2.2.isDict) = true) := by
  have h := build_groups_wellformed cexC1 [cexC1out] (by rfl) cexC1out
    (List.mem_singleton.mpr rfl)
  exact ⟨h.1, h.2.1, h.2.2 claudeGroup (by decide) rfl "claude-sonnet-4-5" (by decide)⟩

/-- C1 counterexample: in `cexC1` the minimum fraction 3/10 is attained
(strictly) by the second member, whose supplied reset time is the empty
string; the group's reset time is nevertheless "T1" from the *first*
member, because `g.reset_time = reset_time or g.reset_time` keeps the old
value on a falsy update.  This refutes "reset time equal to the reset
time supplied by the member that attained that minimum". -/
theorem min_reset_mismatch_cex :
    build_antigravity_groups cexC1 = some [cexC1out] ∧
    entryData (JVal.obj [("remainingFraction", JVal.num (mkRat 1 2)),
      ("resetTime", JVal.str "T1")]) = some (some (mkRat 1 2), JVal.str "T1") ∧
    entryData (JVal.obj [("remainingFraction", JVal.num (mkRat 3 10)),
      ("resetTime", JVal.str "")]) = some (some (mkRat 3 10), JVal.str "") ∧
    mkRat 3 10 < mkRat 1 2 ∧
    cexC1out.reset_time = JVal.str "T1" ∧
    JVal.str "T1" ≠ JVal.str "" := by
  refine ⟨by rfl, by rfl, by rfl, by decide, rfl, ?_⟩
  intro hc
  injection hc with hc2
  exact absurd hc2 (by decide)

/-- C1 amended: a returned group's remaining fraction, when present, is
the minimum of the fractions contributed by the group's members in this
input; the reset time equals the reset time supplied by the earliest
member attaining that minimum *whenever that member's reset time is
truthy* (a falsy reset time at the minimum is ignored and the previously
recorded reset time is kept, see `min_reset_mismatch_cex`; ties keep the
earlier-seen member's data). -/
theorem group_min_fraction (models : List (String × JVal))
    (gs : List AntigravityModelQuota)
    (h : build_antigravity_groups models = some gs) :
    ∀ g ∈ gs, ∀ gdef ∈ ANTIGRAVITY_GROUPS, g.group_label = gdef.label →
      (∀ f, g.remaining_fraction = some f →
        f ∈ groupFracs gdef models ∧ ∀ x ∈ groupFracs gdef models, f ≤ x) ∧
      (∀ l1 l2 q t, groupEntries gdef models = l1 ++ (some q, t) :: l2 →
        (∀ x ∈ l1.filterMap Prod.fst, q < x) →
        (∀ x ∈ l2.filterMap Prod.fst, q ≤ x) →
        t.truthy = true →
        g.remaining_fraction = some q ∧ g.reset_time = t) := by
  intro g hg gdef hgd hlab
  obtain ⟨hperm, _⟩ := build_characterization models gs h
  have hgmem : g ∈ (rhsAssoc models).map Prod.snd := hperm.mem_iff.mp hg
  unfold rhsAssoc at hgmem
  rw [List.map_map] at hgmem
  obtain ⟨gdef0, hmem0, he0⟩ := List.mem_map.mp hgmem
  obtain ⟨hg0, _⟩ := List.mem_filter.mp hmem0
  have hglab : g.group_label = gdef0.label := by rw [← he0]; rfl
  have hgeq : gdef0 = gdef := groups_label_inj gdef0 hg0 gdef hgd (hglab ▸ hlab)
  subst hgeq
  have hgrem : g.remaining_fraction = (minState (groupEntries gdef0 models)).1 := by
    rw [← he0]; rfl
  have hgreset : g.reset_time = (minState (groupEntries gdef0 models)).2 := by
    rw [← he0]; rfl
  constructor
  · intro f hf
    have hq : qListMin (groupFracs gdef0 models) = some f := by
      unfold groupFracs
      rw [← minState_fst, ← hgrem]
      exact hf
    exact qListMin_spec _ f hq
  · intro l1 l2 q t hsplit hlt hle ht
    have hms := minState_first_min l1 l2 q t hlt hle ht
    rw [hgrem, hgreset, hsplit, hms]
    exact ⟨rfl, rfl⟩

/-- Witness for C1's amended theorem at a concrete aggregation where the
minimum member's reset time is truthy. -/
theorem group_min_fraction_witness :
    (mkRat 3 10 ∈ groupFracs claudeGroup minModels ∧
      ∀ x ∈ groupFracs claudeGroup minModels, mkRat 3 10 ≤ x) ∧
    minOut.remaining_fraction = some (mkRat 3 10) ∧
    minOut.reset_time = JVal.str "T2" := by
  have h := group_min_fraction minModels [minOut] (by rfl) minOut
    (List.mem_singleton.mpr rfl) claudeGroup (by decide) rfl
  refine ⟨h.1 (mkRat 3 10) rfl, ?_⟩
  have h2 := h.2 [(some (mkRat 1 2), JVal.str "T1")] [] (mkRat 3 10) (JVal.str "T2")
    (by rfl) (by decide) (by decide) (by decide)
  exact h2

theorem isEmpty_eq_of_perm {α : Type} {l1 l2 : List α} (h : l1.Perm l2) :
    l1.isEmpty = l2.isEmpty := by
  cases l1 with
  | nil => rw [h.symm.eq_nil]
  | cons a r =>
      cases l2 with
      | nil => exact absurd h.eq_nil (by simp)
      | cons b s => rfl

theorem groupMembers_perm (gdef : GroupDef) (models1 models2 : List (String × JVal))
    (hp : models1.Perm models2) :
    (groupMembers gdef models1).Perm (groupMembers gdef models2) := by
  unfold groupMembers
  exact (hp.filter _).map _

theorem groupEntries_perm (gdef : GroupDef) (models1 models2 : List (String × JVal))
    (hp : models1.Perm models2) :
    (groupEntries gdef models1).Perm (groupEntries gdef models2) := by
  unfold groupEntries
  exact (hp.filter _).filterMap _

theorem rhs_filter_eq (models1 models2 : List (String × JVal))
    (hp : models1.Perm models2) :
    ANTIGRAVITY_GROUPS.filter (fun gdef => !(groupMembers gdef models1).isEmpty) =
      ANTIGRAVITY_GROUPS.filter (fun gdef => !(groupMembers gdef models2).isEmpty) := by
  apply List.filter_congr
  intro gdef _
  rw [isEmpty_eq_of_perm (groupMembers_perm gdef models1 models2 hp)]

theorem mkGroupRef_proj_eq (gdef : GroupDef) (models1 models2 : List (String × JVal))
    (hp : models1.Perm models2) :
    projLF (mkGroupRef gdef models1) = projLF (mkGroupRef gdef models2) := by
  unfold projLF mkGroupRef
  simp only
  rw [minState_fst, minState_fst,
    qListMin_perm _ _ ((groupEntries_perm gdef models1 models2 hp).filterMap Prod.fst)]

theorem groups_labels_nodup : (ANTIGRAVITY_GROUPS.map (fun g => g.label)).Nodup := by
  decide

theorem build_labels_nodup (models : List (String × JVal))
    (gs : List AntigravityModelQuota)
    (h : build_antigravity_groups models = some gs) :
    (gs.map (fun g => g.group_label)).Nodup := by
  obtain ⟨hperm, _⟩ := build_characterization models gs h
  rw [(hperm.map (fun g => g.group_label)).nodup_iff]
  unfold rhsAssoc
  rw [List.map_map, List.map_map]
  have heq : (((fun g : AntigravityModelQuota => g.group_label) ∘ Prod.snd) ∘
      fun gdef => (gdef.id, mkGroupRef gdef models)) =
      fun gdef : GroupDef => gdef.label := by
    funext gdef
    rfl
  rw [heq]
  exact groups_labels_nodup.sublist ((List.filter_sublist _).map _)

theorem build_proj_pairwise (models : List (String × JVal))
    (gs : List AntigravityModelQuota)
    (h : build_antigravity_groups models = some gs) :
    (gs.map projLF).Pairwise (fun a b => a.1 < b.1) := by
  obtain ⟨_, hsort⟩ := build_characterization models gs h
  have hnd := build_labels_nodup models gs h
  have hndp : gs.Pairwise (fun a b => a.group_label ≠ b.group_label) :=
    List.pairwise_map.mp hnd
  rw [List.pairwise_map]
  refine (hsort.and hndp).imp ?_
  rintro a b ⟨hle, hne⟩
  exact lt_of_le_of_ne hle hne

/-- C7 counterexample: swapping the two entries of `cexC1` (a genuine
permutation of the raw mapping, with the two members' fractions strictly
distinct — no exact tie) changes both the group's reset time ("T1"
versus "") and the order of its member list, refuting "identical
ModelGroupQuota results ... except [on] exact equality of fractions". -/
theorem build_perm_cex :
    cexC1swapped.Perm cexC1 ∧
    build_antigravity_groups cexC1 = some [cexC1out] ∧
    build_antigravity_groups cexC1swapped = some [cexC1swappedOut] ∧
    cexC1out.remaining_fraction = some (mkRat 3 10) ∧
    cexC1swappedOut.remaining_fraction = some (mkRat 3 10) ∧
    mkRat 1 2 ≠ mkRat 3 10 ∧
    cexC1out.reset_time ≠ cexC1swappedOut.reset_time ∧
    cexC1out.models ≠ cexC1swappedOut.models := by
  refine ⟨?_, by rfl, by rfl, rfl, rfl, by decide, ?_, ?_⟩
  · unfold cexC1 cexC1swapped
    exact List.Perm.swap _ _ _
  · intro hc
    injection hc with hc2
    exact absurd hc2 (by decide)
  · intro hc
    exact absurd hc (by decide)

/-- C7 amended: permuting the raw model mapping yields outputs with
identical (label, remaining-fraction) sequences — the remaining fraction
is a true order-independent minimum and the output is label-sorted — and
pairwise matching groups whose member lists are permutations of each
other; reset times (and member-list order) may additionally differ
whenever a minimum-attaining member has a falsy reset time, not only on
exact fraction ties (see `build_perm_cex`). -/
theorem build_perm_invariant (models1 models2 : List (String × JVal))
    (gs1 gs2 : List AntigravityModelQuota)
    (hp : models1.Perm models2)
    (h1 : build_antigravity_groups models1 = some gs1)
    (h2 : build_antigravity_groups models2 = some gs2) :
    gs1.map projLF = gs2.map projLF ∧
    ∀ g1 ∈ gs1, ∃ g2 ∈ gs2, g1.group_label = g2.group_label ∧
      g1.remaining_fraction = g2.remaining_fraction ∧ g1.models.Perm g2.models := by
  obtain ⟨hperm1, _⟩ := build_characterization models1 gs1 h1
  obtain ⟨hperm2, _⟩ := build_characterization models2 gs2 h2
  have hfe := rhs_filter_eq models1 models2 hp
  have hprojeq : ((rhsAssoc models1).map Prod.snd).map projLF =
      ((rhsAssoc models2).map Prod.snd).map projLF := by
    unfold rhsAssoc
    rw [List.map_map, List.map_map, List.map_map, List.map_map, hfe]
    apply List.map_congr_left
    intro gdef _
    exact mkGroupRef_proj_eq gdef models1 models2 hp
  constructor
  · have hpp : (gs1.map projLF).Perm (gs2.map projLF) :=
      (hperm1.map projLF).trans (hprojeq ▸ (hperm2.map projLF).symm)
    haveI : IsAntisymm (String × Option ℚ) (fun a b => a.1 < b.1) :=
      ⟨fun a b hab hba => absurd hba (lt_asymm hab)⟩
    exact List.eq_of_perm_of_sorted hpp (build_proj_pairwise models1 gs1 h1)
      (build_proj_pairwise models2 gs2 h2)
  · intro g1 hg1
    have hmem1 : g1 ∈ (rhsAssoc models1).map Prod.snd := hperm1.mem_iff.mp hg1
    unfold rhsAssoc at hmem1
    rw [List.map_map] at hmem1
    obtain ⟨gdef, hmem, he⟩ := List.mem_map.mp hmem1
    refine ⟨mkGroupRef gdef models2, ?_, ?_, ?_, ?_⟩
    · apply hperm2.mem_iff.mpr
      unfold rhsAssoc
      rw [List.map_map]
      refine List.mem_map.mpr ⟨gdef, ?_, rfl⟩
      rw [← hfe]
      exact hmem
    · rw [← he]
      rfl
    · rw [← he]
      exact congrArg Prod.snd (mkGroupRef_proj_eq gdef models1 models2 hp)
    · rw [← he]
      exact groupMembers_perm gdef models1 models2 hp

/-- Witness for C7's amended theorem at the two orders of `cexC1`. -/
theorem build_perm_invariant_witness :
    [cexC1swappedOut].map projLF = [cexC1out].map projLF ∧
    ∀ g1 ∈ [cexC1swappedOut], ∃ g2 ∈ [cexC1out], g1.group_label = g2.group_label ∧
      g1.remaining_fraction = g2.remaining_fraction ∧ g1.models.Perm g2.models :=
  build_perm_invariant cexC1swapped cexC1 [cexC1swappedOut] [cexC1out]
    (by unfold cexC1 cexC1swapped; exact List.Perm.swap _ _ _) (by rfl) (by rfl)

theorem parseAuthItem_some (fields : List (String × JVal))
    (h : (objGet fields "provider" (JVal.str "")).isStrEq "codex" = true →
      (objGet fields "id_token" (JVal.obj [])).truthy = false ∨
      ∃ tf, objGet fields "id_token" (JVal.obj []) = JVal.obj tf) :
    (parseAuthItem fields).isSome = true := by
  simp only [parseAuthItem]
  by_cases hck : (objGet fields "provider" (JVal.str "")).isStrEq "codex" = true
  · rcases h hck with hf | ⟨tf, htf⟩
    · simp [hf]
    · rw [htf]
      by_cases ht : (JVal.obj tf).truthy <;> simp [ht, hck]
  · simp [hck]

theorem authFilesLoop_filterMap :
    ∀ (items : List JVal),
      (∀ item ∈ items, ∃ fields, item = JVal.obj fields) →
      (∀ fields, JVal.obj fields ∈ items →
        (objGet fields "provider" (JVal.str "")).isStrEq "codex" = true →
        (objGet fields "id_token" (JVal.obj [])).truthy = false ∨
        ∃ tf, objGet fields "id_token" (JVal.obj []) = JVal.obj tf) →
      authFilesLoop items = some (items.filterMap (fun item =>
        match item with
        | JVal.obj fields =>
            if providerSupported (objGet fields "provider" (JVal.str "")) then
              parseAuthItem fields
            else none
        | _ => none)) := by
  intro items
  induction items with
  | nil => intro _ _; rfl
  | cons item rest ih =>
      intro hrec htok
      obtain ⟨fields, rfl⟩ := hrec item (List.mem_cons_self _ _)
      have hrest := ih (fun i hi => hrec i (List.mem_cons_of_mem _ hi))
        (fun f hf hc => htok f (List.mem_cons_of_mem _ hf) hc)
      by_cases hps : providerSupported (objGet fields "provider" (JVal.str "")) = true
      · have hsome : (parseAuthItem fields).isSome = true := by
          apply parseAuthItem_some
          intro hck
          exact htok fields (List.mem_cons_self _ _) hck
        obtain ⟨af, haf⟩ := Option.isSome_iff_exists.mp hsome
        simp only [authFilesLoop, hps, if_true, haf, hrest, List.filterMap_cons]
      · simp only [authFilesLoop, hps, if_false, Bool.false_eq_true]
        rw [hrest]
        simp [List.filterMap_cons, hps]

/-- C8: for a directory response whose `files` value is a list of record
entries (with, for codex records, a falsy or dict-shaped `id_token`),
`get_auth_files` returns exactly the entries whose provider tag is in the
supported set, in response order, each parsed by `parseAuthItem` with
absent optional fields defaulted instead of raising. -/
theorem get_auth_files_filters_in_order (rf : List (String × JVal)) (items : List JVal)
    (hfiles : objGet rf "files" (JVal.arr []) = JVal.arr items)
    (hrec : ∀ item ∈ items, ∃ fields, item = JVal.obj fields)
    (htok : ∀ fields, JVal.obj fields ∈ items →
      (objGet fields "provider" (JVal.str "")).isStrEq "codex" = true →
      (objGet fields "id_token" (JVal.obj [])).truthy = false ∨
      ∃ tf, objGet fields "id_token" (JVal.obj []) = JVal.obj tf) :
    get_auth_files (JVal.obj rf) = some (items.filterMap (fun item =>
      match item with
      | JVal.obj fields =>
          if providerSupported (objGet fields "provider" (JVal.str "")) then
            parseAuthItem fields
          else none
      | _ => none)) := by
  simp only [get_auth_files]
  rw [hfiles]
  simp only [pyIter]
  exact authFilesLoop_filterMap items hrec htok

/-- Witness for C8: the unsupported provider is dropped, order is
preserved, and absent optional fields are defaulted. -/
theorem get_auth_files_witness :
    get_auth_files dirResp = some [codexAF, agAF] := by
  have h := get_auth_files_filters_in_order [("files", JVal.arr dirItems)] dirItems rfl
    (by
      intro item hi
      simp only [dirItems, List.mem_cons, List.not_mem_nil, or_false] at hi
      rcases hi with rfl | rfl | rfl <;> exact ⟨_, rfl⟩)
    (by
      intro fields hf hc
      simp only [dirItems, List.mem_cons, List.not_mem_nil, or_false] at hf
      rcases hf with he | he | he <;> injection he with he2 <;> subst he2
      · exact Or.inr ⟨_, rfl⟩
      · exact absurd hc (by decide)
      · exact absurd hc (by decide))
  exact h.trans (by rfl)

/-- C9: with the wall clock, the ISO-8601 library parser and the
local-calendar rendering abstracted as parameters (as `api_call` and
`json.loads` are elsewhere in this file), the reset-time formatters
satisfy: an absent or non-positive delay renders as "now" and a positive
delay as the rendering of the instant now-plus-delay; a timestamp string
that is empty or fails to parse renders as the empty string, a parsed
timestamp at or before the current time renders as "resetting", and a
parsed future timestamp as its local-calendar rendering. -/
theorem reset_formatters_spec (now : ℚ) (render : ℚ → String)
    (parseIso : String → Option ℚ) :
    fmt_reset_abs now render none = "now" ∧
    (∀ s : ℚ, s ≤ 0 → fmt_reset_abs now render (some s) = "now") ∧
    (∀ s : ℚ, 0 < s → fmt_reset_abs now render (some s) = render (now + s)) ∧
    fmt_reset_time now render parseIso "" = "" ∧
    (∀ ts, ts ≠ "" → parseIso (replaceZ ts) = none →
      fmt_reset_time now render parseIso ts = "") ∧
    (∀ ts t, ts ≠ "" → parseIso (replaceZ ts) = some t → t ≤ now →
      fmt_reset_time now render parseIso ts = "resetting") ∧
    (∀ ts t, ts ≠ "" → parseIso (replaceZ ts) = some t → now < t →
      fmt_reset_time now render parseIso ts = render t) := by
  refine ⟨rfl, ?_, ?_, rfl, ?_, ?_, ?_⟩
  · intro s hs
    simp [fmt_reset_abs, hs]
  · intro s hs
    simp [fmt_reset_abs, not_le.mpr hs]
  · intro ts hts hp
    simp [fmt_reset_time, hts, hp]
  · intro ts t hts hp hle
    simp [fmt_reset_time, hts, hp, sub_nonpos.mpr hle]
  · intro ts t hts hp hlt
    have hpos : ¬ t - now ≤ 0 := by
      rw [sub_nonpos]
      exact not_le.mpr hlt
    simp [fmt_reset_time, hts, hp, hpos]

/-- Witness for C9 at concrete instants: delay 0 renders "now", delay
3600 renders the instant one hour ahead, a future timestamp renders via
the local renderer, a past timestamp renders "resetting", and a
malformed timestamp renders empty. -/
theorem reset_formatters_spec_witness :
    fmt_reset_abs 100 sampleRender (some 0) = "now" ∧
    fmt_reset_abs 100 sampleRender (some 3600) = sampleRender (100 + 3600) ∧
    fmt_reset_time 100 sampleRender sampleParseIso "2026-01-01T00:00:00Z" =
      sampleRender 200 ∧
    fmt_reset_time 300 sampleRender sampleParseIso "2026-01-01T00:00:00Z" =
      "resetting" ∧
    fmt_reset_time 100 sampleRender sampleParseIso "not-a-timestamp" = "" :=
  ⟨(reset_formatters_spec 100 sampleRender sampleParseIso).2.1 0 le_rfl,
    (reset_formatters_spec 100 sampleRender sampleParseIso).2.2.1 3600 (by norm_num),
    (reset_formatters_spec 100 sampleRender sampleParseIso).2.2.2.2.2.2
      "2026-01-01T00:00:00Z" 200 (by decide) (by rfl) (by norm_num),
    (reset_formatters_spec 300 sampleRender sampleParseIso).2.2.2.2.2.1
      "2026-01-01T00:00:00Z" 200 (by decide) (by rfl) (by norm_num),
    (reset_formatters_spec 100 sampleRender sampleParseIso).2.2.2.2.1
      "not-a-timestamp" (by decide) (by rfl)⟩
